import Mathlib

set_option linter.unusedVariables false

/-!
Shallow embedding of the combat-resolution core of `src/server.js`
(Rumble Pit): the duel resolver `determineWinner`, the pit resolution
pass `processAllAttacks`, the clan battle engine
(`executeClanBattleRound` / `startClanBattle` and its deferred point
settlement), the broadcast payload builders `getLeaderboard` and
`getPitPlayers`, and the draw-number generator `generatePlayerNumber`.

JavaScript `Map`s (insertion-ordered) are modelled as association
lists, JS numbers used as integers as `Int`/`Nat`, nullable fields as
`Option`, and `Math.random()` driven choices as explicit parameters
(a rational in `[0,1)`, a shuffle oracle, a coin-flip oracle).
-/

inductive AttackType
  | distance
  | melee
deriving DecidableEq, Repr

inductive PlayerAction
  | defend
  | attack
deriving DecidableEq, Repr

/-- A live session entry of the `players` map in `server.js` (the fields
set up in the `identify` / `confirmCharacter` handlers). -/
structure Player where
  id : String
  odIdentifier : String
  name : String
  points : Int
  playerNumber : Nat
  characterImage : Nat
  clanName : Option String
  streak : Nat
  inPit : Bool
  action : Option PlayerAction
  actionTarget : Option String
  actionTime : Option Nat
  attackType : Option AttackType
  canHeckle : Bool
  dailyRevengeKills : Nat
  dailyMaxStreak : Nat
deriving DecidableEq, Repr

/-- One entry of the `revengeTargets` map: who the avenger owes a debt
against, and when the claim expires. -/
structure RevengeEntry where
  odIdentifier : String
  expiresAt : Nat
deriving DecidableEq, Repr

/-- The result record built by `determineWinner` and by the gang-attack
branch of `processAllAttacks`, as pushed into the `results` batch that
is emitted to clients as the `battleResults` event. -/
structure DuelResult where
  attackerId : String
  attackerName : String
  defenderId : String
  defenderName : String
  winnerId : Option String
  loserId : Option String
  reason : String
  attackerNumber : Nat
  defenderNumber : Nat
  attackType : Option AttackType
  isRevenge : Bool := false
  captured : Bool := false
  capturedBy : Option String := none
  isStreakKill : Bool := false
  isGangAttack : Bool := false
deriving DecidableEq, Repr

/-- `determineWinner(attacker, target)` from `server.js`: pure duel
resolution.  `attacker.actionTime < target.actionTime` on JS `null`
coerces `null` to `0`, captured by `Option.getD 0`. -/
def determineWinner (attacker target : Player) : DuelResult :=
  let attackType := attacker.attackType
  let base : DuelResult := {
    attackerId := attacker.id
    attackerName := attacker.name
    defenderId := target.id
    defenderName := target.name
    winnerId := none
    loserId := none
    reason := ""
    attackerNumber := attacker.playerNumber
    defenderNumber := target.playerNumber
    attackType := attackType }
  if target.action = some PlayerAction.attack ∧ target.actionTarget ≠ some attacker.id then
    { base with winnerId := some attacker.id, loserId := some target.id,
                reason := "caught attacking" }
  else if target.action = some PlayerAction.attack ∧ target.actionTarget = some attacker.id then
    if attackType = some AttackType.distance ∧ target.attackType = some AttackType.melee then
      { base with winnerId := some attacker.id, loserId := some target.id,
                  reason := "distance beats melee" }
    else if attackType = some AttackType.melee ∧ target.attackType = some AttackType.distance then
      { base with winnerId := some target.id, loserId := some attacker.id,
                  reason := "distance beats melee", attackType := target.attackType }
    else if attacker.actionTime.getD 0 < target.actionTime.getD 0 then
      { base with winnerId := some attacker.id, loserId := some target.id,
                  reason := "faster draw" }
    else
      { base with winnerId := some target.id, loserId := some attacker.id,
                  reason := "faster draw" }
  else if attackType = some AttackType.distance then
    if target.playerNumber ≤ attacker.playerNumber then
      { base with winnerId := some attacker.id, loserId := some target.id,
                  reason := if attacker.playerNumber = target.playerNumber then
                    "tie - attacker wins" else "higher number" }
    else
      { base with winnerId := some target.id, loserId := some attacker.id,
                  reason := "higher number" }
  else
    if attacker.playerNumber ≤ target.playerNumber then
      { base with winnerId := some attacker.id, loserId := some target.id,
                  reason := if attacker.playerNumber = target.playerNumber then
                    "tie - attacker wins" else "lower number" }
    else
      { base with winnerId := some target.id, loserId := some attacker.id,
                  reason := "lower number" }

/-- `generatePlayerNumber()` is `Math.floor(Math.random() * 100)`;
the random source `Math.random()` is modelled as an explicit rational
argument in `[0,1)`. -/
def generatePlayerNumber (r : ℚ) : ℤ := ⌊r * 100⌋

/-- Concrete in-pit session fixture used by the witness theorems. -/
def mkPlayer (id od name : String) (points : Int) (num : Nat)
    (act : Option PlayerAction) (tgt : Option String) (time : Option Nat)
    (ty : Option AttackType) : Player :=
  { id := id, odIdentifier := od, name := name, points := points,
    playerNumber := num, characterImage := 1, clanName := none, streak := 0,
    inPit := true, action := act, actionTarget := tgt, actionTime := time,
    attackType := ty, canHeckle := false, dailyRevengeKills := 0, dailyMaxStreak := 0 }

/-- C3: in a mutual duel (both players attacking each other), a distance
attacker beats a melee attacker unconditionally (in either role), and
with equal attack types the side with the strictly earlier action
timestamp wins with reason "faster draw". -/
theorem determineWinner_mutual_duel (a t : Player)
    (hact : t.action = some PlayerAction.attack)
    (htgt : t.actionTarget = some a.id) :
    (a.attackType = some AttackType.distance → t.attackType = some AttackType.melee →
      (determineWinner a t).winnerId = some a.id ∧ (determineWinner a t).loserId = some t.id ∧
      (determineWinner a t).reason = "distance beats melee") ∧
    (a.attackType = some AttackType.melee → t.attackType = some AttackType.distance →
      (determineWinner a t).winnerId = some t.id ∧ (determineWinner a t).loserId = some a.id ∧
      (determineWinner a t).reason = "distance beats melee") ∧
    (a.attackType = t.attackType → a.actionTime.getD 0 < t.actionTime.getD 0 →
      (determineWinner a t).winnerId = some a.id ∧ (determineWinner a t).reason = "faster draw") ∧
    (a.attackType = t.attackType → t.actionTime.getD 0 < a.actionTime.getD 0 →
      (determineWinner a t).winnerId = some t.id ∧ (determineWinner a t).reason = "faster draw") := by
  refine ⟨?_, ?_, ?_, ?_⟩
  · intro ha ht
    simp [determineWinner, hact, htgt, ha, ht]
  · intro ha ht
    simp [determineWinner, hact, htgt, ha, ht]
  · intro hty hlt
    have hnotdm : ¬ (a.attackType = some AttackType.distance ∧
        t.attackType = some AttackType.melee) := by
      rintro ⟨h1, h2⟩; rw [hty] at h1; rw [h1] at h2; exact absurd h2 (by simp)
    have hnotmd : ¬ (a.attackType = some AttackType.melee ∧
        t.attackType = some AttackType.distance) := by
      rintro ⟨h1, h2⟩; rw [hty] at h1; rw [h1] at h2; exact absurd h2 (by simp)
    simp [determineWinner, hact, htgt, hnotdm, hnotmd, hlt]
  · intro hty hlt
    have hnotdm : ¬ (a.attackType = some AttackType.distance ∧
        t.attackType = some AttackType.melee) := by
      rintro ⟨h1, h2⟩; rw [hty] at h1; rw [h1] at h2; exact absurd h2 (by simp)
    have hnotmd : ¬ (a.attackType = some AttackType.melee ∧
        t.attackType = some AttackType.distance) := by
      rintro ⟨h1, h2⟩; rw [hty] at h1; rw [h1] at h2; exact absurd h2 (by simp)
    have hnle : ¬ a.actionTime.getD 0 < t.actionTime.getD 0 := by omega
    simp [determineWinner, hact, htgt, hnotdm, hnotmd, hnle]

/-- C3 witness: a concrete mutual duel, number 5 distance attacker vs
number 90 melee defender engaged on each other, attacker wins "distance
beats melee"; and same-type duels resolved by the earlier timestamp. -/
theorem determineWinner_mutual_duel_witness :
    let a : Player := mkPlayer "A" "odA" "A" 5 5 (some PlayerAction.attack)
      (some "T") (some 10) (some AttackType.distance)
    let t : Player := mkPlayer "T" "odT" "T" 5 90 (some PlayerAction.attack)
      (some "A") (some 20) (some AttackType.melee)
    (determineWinner a t).winnerId = some "A" ∧
    (determineWinner a t).reason = "distance beats melee" := by
  intro a t
  have h := determineWinner_mutual_duel a t (by decide) (by decide)
  have h1 := h.1 (by decide) (by decide)
  exact ⟨h1.1, h1.2.2⟩

/-- C4: when the target is defending or idle the resolver compares draw
numbers: a distance attacker wins iff its number is ≥ the target's, a
melee attacker wins iff its number is ≤ the target's, and equal numbers
always go to the attacker with a reason containing "tie". -/
theorem determineWinner_number_comparison (a t : Player)
    (hne : a.id ≠ t.id)
    (h : t.action ≠ some PlayerAction.attack) :
    (a.attackType = some AttackType.distance →
      ((determineWinner a t).winnerId = some a.id ↔ t.playerNumber ≤ a.playerNumber)) ∧
    (a.attackType = some AttackType.melee →
      ((determineWinner a t).winnerId = some a.id ↔ a.playerNumber ≤ t.playerNumber)) ∧
    (a.playerNumber = t.playerNumber →
      (determineWinner a t).winnerId = some a.id ∧
      ∃ p s, (determineWinner a t).reason = p ++ "tie" ++ s) := by
  have hba : ¬ (t.action = some PlayerAction.attack ∧ t.actionTarget ≠ some a.id) := by
    rintro ⟨h1, _⟩; exact h h1
  have hbm : ¬ (t.action = some PlayerAction.attack ∧ t.actionTarget = some a.id) := by
    rintro ⟨h1, _⟩; exact h h1
  refine ⟨?_, ?_, ?_⟩
  · intro ha
    by_cases hcmp : t.playerNumber ≤ a.playerNumber
    · simp [determineWinner, hba, hbm, ha, hcmp]
    · simp [determineWinner, hba, hbm, ha, hcmp, Ne.symm hne]
  · intro ha
    by_cases hcmp : a.playerNumber ≤ t.playerNumber
    · simp [determineWinner, hba, hbm, ha, hcmp]
    · simp [determineWinner, hba, hbm, ha, hcmp, Ne.symm hne]
  · intro heq
    by_cases ha : a.attackType = some AttackType.distance
    · refine ⟨by simp [determineWinner, hba, hbm, ha, heq.ge, heq], "", " - attacker wins", ?_⟩
      simp [determineWinner, hba, hbm, ha, heq.ge, heq]
    · refine ⟨by simp [determineWinner, hba, hbm, ha, heq.le, heq], "", " - attacker wins", ?_⟩
      simp [determineWinner, hba, hbm, ha, heq.le, heq]

/-- C4 witness: attacker number 42 distance vs idle defender number 42,
attacker wins and the reason contains "tie". -/
theorem determineWinner_number_comparison_witness :
    let a : Player := mkPlayer "A" "odA" "A" 5 42 (some PlayerAction.attack)
      (some "T") (some 10) (some AttackType.distance)
    let t : Player := mkPlayer "T" "odT" "T" 5 42 none none none none
    (determineWinner a t).winnerId = some "A" ∧
    ∃ p s, (determineWinner a t).reason = p ++ "tie" ++ s := by
  intro a t
  have h := (determineWinner_number_comparison a t (by decide) (by decide)).2.2 (by decide)
  exact h

/-- C10: in a mutual duel with equal attack types, exactly equal action
timestamps award the win to the target with reason "faster draw"; the
attacker wins only when its timestamp is strictly earlier. -/
theorem determineWinner_timestamp_tie (a t : Player)
    (hne : a.id ≠ t.id)
    (hact : t.action = some PlayerAction.attack)
    (htgt : t.actionTarget = some a.id)
    (hty : a.attackType = t.attackType) :
    (a.actionTime = t.actionTime →
      (determineWinner a t).winnerId = some t.id ∧
      (determineWinner a t).reason = "faster draw") ∧
    ((determineWinner a t).winnerId = some a.id →
      a.actionTime.getD 0 < t.actionTime.getD 0) := by
  have hnotdm : ¬ (a.attackType = some AttackType.distance ∧
      t.attackType = some AttackType.melee) := by
    rintro ⟨h1, h2⟩; rw [hty] at h1; rw [h1] at h2; exact absurd h2 (by simp)
  have hnotmd : ¬ (a.attackType = some AttackType.melee ∧
      t.attackType = some AttackType.distance) := by
    rintro ⟨h1, h2⟩; rw [hty] at h1; rw [h1] at h2; exact absurd h2 (by simp)
  constructor
  · intro heq
    have hnlt : ¬ a.actionTime.getD 0 < t.actionTime.getD 0 := by rw [heq]; omega
    simp [determineWinner, hact, htgt, hnotdm, hnotmd, hnlt]
  · intro hwin
    by_contra hnlt
    simp [determineWinner, hact, htgt, hnotdm, hnotmd, hnlt] at hwin
    exact hne hwin.symm

/-- C10 witness: equal attack types and exactly equal timestamps give
the win to the target of the invocation with reason "faster draw". -/
theorem determineWinner_timestamp_tie_witness :
    let a : Player := mkPlayer "A" "odA" "A" 5 10 (some PlayerAction.attack)
      (some "T") (some 100) (some AttackType.melee)
    let t : Player := mkPlayer "T" "odT" "T" 5 20 (some PlayerAction.attack)
      (some "A") (some 100) (some AttackType.melee)
    (determineWinner a t).winnerId = some "T" ∧
    (determineWinner a t).reason = "faster draw" := by
  intro a t
  exact (determineWinner_timestamp_tie a t (by decide) (by decide) (by decide)
    (by decide)).1 (by decide)

/-- C9 counterexample: the random source value 99/100 lies in `[0,1)`
yet produces draw number 99, outside the claimed range `[0,99)`. -/
theorem generatePlayerNumber_exceeds_98 :
    (0 : ℚ) ≤ 99/100 ∧ (99/100 : ℚ) < 1 ∧ ¬ generatePlayerNumber (99/100) ≤ 98 := by
  refine ⟨by norm_num, by norm_num, ?_⟩
  have : ((99 : ℚ)/100) * 100 = (99 : ℚ) := by norm_num
  simp only [generatePlayerNumber, this]
  norm_num

/-- C9 amended: every draw number generated from a random source value
in `[0,1)` lies in `[0,100)`, that is `0 ≤ n ≤ 99`. -/
theorem generatePlayerNumber_range (r : ℚ) (h0 : 0 ≤ r) (h1 : r < 1) :
    0 ≤ generatePlayerNumber r ∧ generatePlayerNumber r ≤ 99 := by
  constructor
  · exact Int.floor_nonneg.mpr (by positivity)
  · have hlt : r * 100 < ((100 : ℤ) : ℚ) := by push_cast; nlinarith
    have := Int.floor_lt.mpr hlt
    simp only [generatePlayerNumber]
    omega

/-- C9 amended witness: the random source value 1/2 is in `[0,1)` and
its generated draw number is within `[0,99]`. -/
theorem generatePlayerNumber_range_witness :
    (0 : ℚ) ≤ 1/2 ∧ (1/2 : ℚ) < 1 ∧
    0 ≤ generatePlayerNumber (1/2) ∧ generatePlayerNumber (1/2) ≤ 99 := by
  have h := generatePlayerNumber_range (1/2) (by norm_num) (by norm_num)
  exact ⟨by norm_num, by norm_num, h.1, h.2⟩

/-- A row of the persistent `players` table (the durability sink the
pass writes through `updatePlayerPoints`, `updateDailyChallenge` and
`captureCharacter`). -/
structure DbRecord where
  od_identifier : String
  name : String
  points : Int
  clan_name : Option String
  owner_id : Option String
  daily_revenge_kills : Nat
  daily_max_streak : Nat
deriving DecidableEq, Repr

/-- `captureCharacter(capturedId, newClanName, newOwnerId)`: sets the
captured record's clan and owner. -/
def captureCharacter (db : List DbRecord) (capturedId : String)
    (newClan : Option String) (newOwner : String) : List DbRecord :=
  db.map fun r =>
    if r.od_identifier = capturedId then
      { r with clan_name := newClan, owner_id := some newOwner }
    else r

/-- `updatePlayerPoints(odIdentifier, points)`: stores the given balance. -/
def updatePlayerPoints (db : List DbRecord) (od : String) (points : Int) : List DbRecord :=
  db.map fun r => if r.od_identifier = od then { r with points := points } else r

/-- `updateDailyChallenge(odIdentifier, revengeKills, maxStreak)`: the SQL
uses GREATEST, so the stored counters only ever grow. -/
def updateDailyChallenge (db : List DbRecord) (od : String) (rk ms : Nat) : List DbRecord :=
  db.map fun r =>
    if r.od_identifier = od then
      { r with daily_revenge_kills := max r.daily_revenge_kills rk,
               daily_max_streak := max r.daily_max_streak ms }
    else r

/-- `players.get(id)` on the insertion-ordered session map. -/
def findPlayer : List Player → String → Option Player
  | [], _ => none
  | p :: ps, i => if p.id = i then some p else findPlayer ps i

/-- In-place mutation of the session with the given id. -/
def updatePlayer (ps : List Player) (i : String) (f : Player → Player) : List Player :=
  ps.map fun p => if p.id = i then f p else p

/-- `revengeTargets.get(key)`. -/
def rtGet : List (String × RevengeEntry) → String → Option RevengeEntry
  | [], _ => none
  | e :: es, k => if e.1 = k then some e.2 else rtGet es k

/-- `revengeTargets.set(key, value)`. -/
def rtSet : List (String × RevengeEntry) → String → RevengeEntry →
    List (String × RevengeEntry)
  | [], k, v => [(k, v)]
  | e :: es, k, v => if e.1 = k then (k, v) :: es else e :: rtSet es k v

/-- `revengeTargets.delete(key)`. -/
def rtDelete : List (String × RevengeEntry) → String → List (String × RevengeEntry)
  | [], _ => []
  | e :: es, k => if e.1 = k then es else e :: rtDelete es k

/-- `Set.add` on an insertion-ordered JS `Set` modelled as a list. -/
def setAdd (s : List String) (x : String) : List String :=
  if x ∈ s then s else s ++ [x]

/-- `winnerBonuses.get(id) || 0`. -/
def bonusGet : List (String × Nat) → String → Nat
  | [], _ => 0
  | e :: es, k => if e.1 = k then e.2 else bonusGet es k

/-- `winnerBonuses.set(id, (winnerBonuses.get(id) || 0) + d)`. -/
def bonusAdd : List (String × Nat) → String → Nat → List (String × Nat)
  | [], k, d => [(k, d)]
  | e :: es, k, d => if e.1 = k then (e.1, e.2 + d) :: es else e :: bonusAdd es k d

/-- The live-revenge test used in both branches of `processAllAttacks`:
`myRevenge && myRevenge.odIdentifier === target.odIdentifier &&
myRevenge.expiresAt > now`. -/
def isLiveRevenge (rt : List (String × RevengeEntry)) (attackerOd targetOd : String)
    (now : Nat) : Bool :=
  match rtGet rt attackerOd with
  | some e => decide (e.odIdentifier = targetOd ∧ now < e.expiresAt)
  | none => false

/-- `results.find(r => r.loser && r.loser.id === loserId)`. -/
def findLoserResult : List DuelResult → String → Option DuelResult
  | [], _ => none
  | r :: rs, i => if r.loserId = some i then some r else findLoserResult rs i

/-- `results.find(r => r.winner && r.winner.id === winnerId)`. -/
def findWinnerResult : List DuelResult → String → Option DuelResult
  | [], _ => none
  | r :: rs, i => if r.winnerId = some i then some r else findWinnerResult rs i

/-- In-place mutation of the first result entry naming the given loser. -/
def markLoserResult (f : DuelResult → DuelResult) :
    List DuelResult → String → List DuelResult
  | [], _ => []
  | r :: rs, i => if r.loserId = some i then f r :: rs else r :: markLoserResult f rs i

/-- In-place mutation of the first result entry naming the given winner. -/
def markWinnerResult (f : DuelResult → DuelResult) :
    List DuelResult → String → List DuelResult
  | [], _ => []
  | r :: rs, i => if r.winnerId = some i then f r :: rs else r :: markWinnerResult f rs i

/-- The result record pushed for each attacker of a gang attack. -/
def gangResult (attacker target : Player) (isRev : Bool) : DuelResult :=
  { attackerId := attacker.id, attackerName := attacker.name,
    defenderId := target.id, defenderName := target.name,
    winnerId := some attacker.id, loserId := some target.id,
    reason := "gang attack", attackerNumber := attacker.playerNumber,
    defenderNumber := target.playerNumber, attackType := attacker.attackType,
    isRevenge := isRev }

/-- Adding one attacker to `attacksByTarget` (a JS `Map` keyed in
first-insertion order, each value list in push order). -/
def addToGroup : List (String × List Player) → String → Player →
    List (String × List Player)
  | [], tid, p => [(tid, [p])]
  | g :: gs, tid, p =>
    if g.1 = tid then (g.1, g.2 ++ [p]) :: gs else g :: addToGroup gs tid p

/-- Grouping phase of `processAllAttacks`: every in-pit player with a
pending attack and a target is grouped under its target id. -/
def groupAttacks (ps : List Player) : List (String × List Player) :=
  ps.foldl (fun acc p =>
    if p.inPit = true ∧ p.action = some PlayerAction.attack ∧ p.actionTarget.isSome then
      addToGroup acc (p.actionTarget.getD "") p
    else acc) []

/-- The accumulator of the resolution loop of `processAllAttacks`:
`results`, `losers`, `winners`, `winnerBonuses` and the (mutated)
revenge ledger. -/
structure ResolutionState where
  results : List DuelResult
  losers : List String
  winners : List String
  winnerBonuses : List (String × Nat)
  revengeTargets : List (String × RevengeEntry)
deriving Repr

def initResolution (rt : List (String × RevengeEntry)) : ResolutionState :=
  { results := [], losers := [], winners := [], winnerBonuses := [], revengeTargets := rt }

/-- Body of the inner `for (const attacker of attackers)` loop of the
gang-attack branch. -/
def processGangAttacker (target : Player) (now : Nat) (st : ResolutionState)
    (attacker : Player) : ResolutionState :=
  let isRev := isLiveRevenge st.revengeTargets attacker.odIdentifier
    target.odIdentifier now
  { st with
    winners := setAdd st.winners attacker.id
    winnerBonuses := if isRev then bonusAdd st.winnerBonuses attacker.id 2
      else st.winnerBonuses
    revengeTargets := if isRev then rtDelete st.revengeTargets attacker.odIdentifier
      else st.revengeTargets
    results := st.results ++ [gangResult attacker target isRev] }

/-- The single-attacker branch of the resolution loop: an attacker that
already lost this pass is skipped, otherwise `determineWinner` decides,
a winning attacker's live revenge claim is consumed (bonus booked, entry
deleted, result flagged), the result is pushed and the decided loser and
winner are added to the pass sets.  The source mutates `results`,
`losers`, `winners`, `winnerBonuses` and `revengeTargets` in sequence;
the mutations touch distinct fields, written here as one record.
(`determineWinner` always leaves `isRevenge` false, so overwriting it
matches the source's conditional assignment.) -/
def processSingle (st : ResolutionState) (now : Nat) (attacker target : Player) :
    ResolutionState :=
  if attacker.id ∈ st.losers then st
  else
    let r0 := determineWinner attacker target
    let isRev := decide (r0.winnerId = some attacker.id) &&
      isLiveRevenge st.revengeTargets attacker.odIdentifier target.odIdentifier now
    let r1 := { r0 with isRevenge := isRev }
    { results := st.results ++ [r1]
      losers := match r1.loserId with
        | some l => setAdd st.losers l
        | none => st.losers
      winners := match r1.winnerId with
        | some w => setAdd st.winners w
        | none => st.winners
      winnerBonuses := if isRev then bonusAdd st.winnerBonuses attacker.id 2
        else st.winnerBonuses
      revengeTargets := if isRev then rtDelete st.revengeTargets attacker.odIdentifier
        else st.revengeTargets }

/-- One iteration of the `for (const [targetId, attackers] of
attacksByTarget)` loop: a missing or out-of-pit target drops the group;
more than one attacker is a gang attack (the target auto-loses to all);
a sole attacker goes through `processSingle`. -/
def processGroup (ps : List Player) (now : Nat) (st : ResolutionState)
    (grp : String × List Player) : ResolutionState :=
  match findPlayer ps grp.1 with
  | none => st
  | some target =>
    if target.inPit = false then st
    else if 1 < grp.2.length then
      grp.2.foldl (processGangAttacker target now)
        { st with losers := setAdd st.losers grp.1 }
    else
      match grp.2 with
      | [] => st
      | attacker :: _ => processSingle st now attacker target

/-- The pre-pass state: live sessions, revenge ledger and the persistent
store. -/
structure PitState where
  players : List Player
  revengeTargets : List (String × RevengeEntry)
  db : List DbRecord
deriving Repr

/-- The state threaded through the side-effect phases of the pass. -/
structure PassState where
  players : List Player
  revengeTargets : List (String × RevengeEntry)
  db : List DbRecord
  results : List DuelResult
deriving Repr

/-- Grouping plus the resolution loop of `processAllAttacks` (the map is
not mutated while it runs, so the player list is read from the pre-pass
state throughout). -/
def resolvePass (now : Nat) (st : PitState) : ResolutionState :=
  (groupAttacks st.players).foldl (processGroup st.players now)
    (initResolution st.revengeTargets)

/-- One iteration of the `for (const loserId of losers)` loop: record a
revenge claim against the winner, decrement the loser's points floored
at 0, persist them, capture on exactly 0, then reset streak and combat
state and eject the loser from the pit. -/
def applyLoser (now : Nat) (st : PassState) (loserId : String) : PassState :=
  match findPlayer st.players loserId with
  | none => st
  | some loser =>
    let winnerPlayer? := ((findLoserResult st.results loserId).bind DuelResult.winnerId).bind
      (findPlayer st.players)
    let rt := match winnerPlayer? with
      | some wp => rtSet st.revengeTargets loser.odIdentifier
          { odIdentifier := wp.odIdentifier, expiresAt := now + 3 * 60 * 1000 }
      | none => st.revengeTargets
    let newPoints : Int := max 0 (loser.points - 1)
    let db1 := updatePlayerPoints st.db loser.odIdentifier newPoints
    let afterCapture :=
      match winnerPlayer? with
      | some wp =>
        if newPoints = 0 then
          (captureCharacter db1 loser.odIdentifier wp.clanName wp.odIdentifier,
           updatePlayer st.players loserId (fun l => { l with clanName := wp.clanName }),
           markLoserResult (fun r => { r with captured := true, capturedBy := some wp.name })
             st.results loserId)
        else (db1, st.players, st.results)
      | none => (db1, st.players, st.results)
    let players2 := updatePlayer afterCapture.2.1 loserId (fun l =>
      { l with points := newPoints, streak := 0, inPit := false,
               action := none, actionTarget := none, actionTime := none,
               attackType := none })
    { players := players2, revengeTargets := rt, db := afterCapture.1,
      results := afterCapture.2.2 }

/-- One iteration of the `for (const winnerId of winners)` loop: a winner
that also lost this pass is skipped; otherwise points (+1 plus any
revenge bonus), streak and daily counters are updated, combat state is
cleared, heckling is enabled and the result entry is annotated. -/
def applyWinner (losers : List String) (bonuses : List (String × Nat))
    (st : PassState) (winnerId : String) : PassState :=
  match findPlayer st.players winnerId with
  | none => st
  | some winner =>
    if winnerId ∈ losers then st
    else
      let bonus := bonusGet bonuses winnerId
      let isRevengeKill := 0 < bonus
      let newStreak := winner.streak + 1
      let newDailyRevengeKills := if isRevengeKill then winner.dailyRevengeKills + 1
        else winner.dailyRevengeKills
      let newDailyMaxStreak := if winner.dailyMaxStreak < newStreak then newStreak
        else winner.dailyMaxStreak
      let newPoints : Int := winner.points + 1 + (bonus : Int)
      let db1 := updateDailyChallenge st.db winner.odIdentifier newDailyRevengeKills
        newDailyMaxStreak
      let db2 := updatePlayerPoints db1 winner.odIdentifier newPoints
      let players1 := updatePlayer st.players winnerId (fun w =>
        { w with points := newPoints, streak := newStreak,
                 dailyRevengeKills := newDailyRevengeKills,
                 dailyMaxStreak := newDailyMaxStreak,
                 action := none, actionTarget := none, actionTime := none,
                 attackType := none, canHeckle := true })
      let results1 := markWinnerResult (fun r =>
        { r with isStreakKill := decide (5 ≤ newStreak),
                 isGangAttack := decide (r.reason = "gang attack") }) st.results winnerId
      { players := players1, revengeTargets := st.revengeTargets, db := db2,
        results := results1 }

/-- `processAllAttacks()`: group, resolve, apply loser effects, apply
winner effects, and return the mutated state with the results batch. -/
def processAllAttacks (now : Nat) (st : PitState) : PitState × List DuelResult :=
  let res := resolvePass now st
  let pass1 : PassState := { players := st.players, revengeTargets := res.revengeTargets,
                             db := st.db, results := res.results }
  let pass2 := res.losers.foldl (applyLoser now) pass1
  let pass3 := res.winners.foldl (applyWinner res.losers res.winnerBonuses) pass2
  ({ players := pass3.players, revengeTargets := pass3.revengeTargets, db := pass3.db },
   pass3.results)

theorem findPlayer_updatePlayer_self (ps : List Player) (i : String) (f : Player → Player)
    (hf : ∀ p, (f p).id = p.id) :
    findPlayer (updatePlayer ps i f) i = (findPlayer ps i).map f := by
  induction ps with
  | nil => rfl
  | cons p ps ih =>
    by_cases h : p.id = i
    · simp [updatePlayer, findPlayer, h, hf p]
    · simpa [updatePlayer, findPlayer, h] using ih

theorem findPlayer_updatePlayer_ne (ps : List Player) (i j : String) (f : Player → Player)
    (hf : ∀ p, (f p).id = p.id) (hne : i ≠ j) :
    findPlayer (updatePlayer ps j f) i = findPlayer ps i := by
  induction ps with
  | nil => rfl
  | cons p ps ih =>
    by_cases h : p.id = j
    · have h2 : p.id ≠ i := fun hc => hne (hc.symm.trans h)
      simpa [updatePlayer, findPlayer, h, hf p, h2, hne, Ne.symm hne] using ih
    · by_cases h3 : p.id = i
      · simp [updatePlayer, findPlayer, h, h3, hne, Ne.symm hne]
      · simpa [updatePlayer, findPlayer, h, h3, hne, Ne.symm hne] using ih

theorem findLoserResult_markLoserResult (rs : List DuelResult) (i : String)
    (f : DuelResult → DuelResult) (hf : ∀ r, (f r).loserId = r.loserId) :
    findLoserResult (markLoserResult f rs i) i = (findLoserResult rs i).map f := by
  induction rs with
  | nil => rfl
  | cons r rs ih =>
    by_cases h : r.loserId = some i
    · simp [markLoserResult, findLoserResult, h, hf r]
    · simpa [markLoserResult, findLoserResult, h] using ih

theorem captureCharacter_sets_ownership (db : List DbRecord) (cid : String)
    (clan : Option String) (owner : String) :
    ∀ rec ∈ captureCharacter db cid clan owner, rec.od_identifier = cid →
      rec.clan_name = clan ∧ rec.owner_id = some owner := by
  intro rec hrec hid
  simp only [captureCharacter, List.mem_map] at hrec
  obtain ⟨r0, _, hr0⟩ := hrec
  by_cases h : r0.od_identifier = cid
  · simp [h] at hr0
    subst hr0
    exact ⟨rfl, rfl⟩
  · simp [h] at hr0
    subst hr0
    exact absurd hid h

theorem applyLoser_loser_points (now : Nat) (st : PassState) (loserId : String) (l : Player)
    (hfind : findPlayer st.players loserId = some l) :
    ∃ l', findPlayer (applyLoser now st loserId).players loserId = some l' ∧
      l'.points = max 0 (l.points - 1) := by
  simp only [applyLoser, hfind]
  rcases hW : ((findLoserResult st.results loserId).bind DuelResult.winnerId).bind
      (findPlayer st.players) with _ | wp
  · simp only [hW]
    try dsimp only
    refine ⟨{ l with
        points := max 0 (l.points - 1)
        streak := 0
        inPit := false
        action := none
        actionTarget := none
        actionTime := none
        attackType := none }, ?_, rfl⟩
    rw [findPlayer_updatePlayer_self st.players loserId _ (by intro p; rfl), hfind]
    rfl
  · simp only [hW]
    try dsimp only
    by_cases hz : (max 0 (l.points - 1) : Int) = 0
    · rw [if_pos hz]
      try dsimp only
      refine ⟨{ l with
          clanName := wp.clanName
          points := max 0 (l.points - 1)
          streak := 0
          inPit := false
          action := none
          actionTarget := none
          actionTime := none
          attackType := none }, ?_, rfl⟩
      rw [findPlayer_updatePlayer_self _ loserId _ (by intro p; rfl),
          findPlayer_updatePlayer_self st.players loserId _ (by intro p; rfl), hfind]
      rfl
    · rw [if_neg hz]
      try dsimp only
      refine ⟨{ l with
          points := max 0 (l.points - 1)
          streak := 0
          inPit := false
          action := none
          actionTarget := none
          actionTime := none
          attackType := none }, ?_, rfl⟩
      rw [findPlayer_updatePlayer_self st.players loserId _ (by intro p; rfl), hfind]
      rfl

theorem applyLoser_preserves_other (now : Nat) (st : PassState) (j i : String)
    (hne : i ≠ j) :
    findPlayer (applyLoser now st j).players i = findPlayer st.players i := by
  rcases hfind : findPlayer st.players j with _ | l
  · simp only [applyLoser, hfind]
  · simp only [applyLoser, hfind]
    rcases hW : ((findLoserResult st.results j).bind DuelResult.winnerId).bind
        (findPlayer st.players) with _ | wp
    · simp only [hW]
      rw [findPlayer_updatePlayer_ne st.players i j _ (by intro p; rfl) hne]
    · simp only [hW]
      by_cases hz : (max 0 (l.points - 1) : Int) = 0
      · rw [if_pos hz]
        dsimp only
        rw [findPlayer_updatePlayer_ne _ i j _ (by intro p; rfl) hne,
            findPlayer_updatePlayer_ne st.players i j _ (by intro p; rfl) hne]
      · rw [if_neg hz]
        dsimp only
        rw [findPlayer_updatePlayer_ne st.players i j _ (by intro p; rfl) hne]

theorem applyWinner_mem_losers (losers : List String) (bonuses : List (String × Nat))
    (st : PassState) (w : String) (hmem : w ∈ losers) :
    applyWinner losers bonuses st w = st := by
  rcases hfind : findPlayer st.players w with _ | winner
  · simp only [applyWinner, hfind]
  · simp only [applyWinner, hfind, hmem, if_pos]

theorem applyWinner_preserves_other (losers : List String) (bonuses : List (String × Nat))
    (st : PassState) (w i : String) (hne : i ≠ w) :
    findPlayer (applyWinner losers bonuses st w).players i = findPlayer st.players i := by
  rcases hfind : findPlayer st.players w with _ | winner
  · simp only [applyWinner, hfind]
  · by_cases hmem : w ∈ losers
    · rw [applyWinner_mem_losers losers bonuses st w hmem]
    · simp only [applyWinner, hfind, hmem, if_neg, if_false]
      rw [findPlayer_updatePlayer_ne st.players i w _ (by intro p; rfl) hne]

/-- C2: one loser application of the pit pass (`applyLoser`, the body of
the loser loop in `processAllAttacks`): the loser's post-duel balance is
`max 0 (points − 1)`, hence never negative, and ownership transfer (the
result entry marked captured, and the persistent record's clan and owner
set to the winner's clan and persistent identity) happens exactly when
the post-duel balance is 0. -/
theorem applyLoser_capture_invariant (now : Nat) (st : PassState) (loserId : String)
    (l : Player) (r0 : DuelResult) (wId : String) (wp : Player)
    (hfind : findPlayer st.players loserId = some l)
    (hres : findLoserResult st.results loserId = some r0)
    (hr0 : r0.captured = false)
    (hw : r0.winnerId = some wId)
    (hwp : findPlayer st.players wId = some wp) :
    (∃ l', findPlayer (applyLoser now st loserId).players loserId = some l' ∧
      l'.points = max 0 (l.points - 1)) ∧
    0 ≤ max 0 (l.points - 1) ∧
    ((∃ r', findLoserResult (applyLoser now st loserId).results loserId = some r' ∧
      r'.captured = true) ↔ max 0 (l.points - 1) = 0) ∧
    (max 0 (l.points - 1) = 0 →
      ∀ rec ∈ (applyLoser now st loserId).db, rec.od_identifier = l.odIdentifier →
        rec.clan_name = wp.clanName ∧ rec.owner_id = some wp.odIdentifier) := by
  have hwp' : ((findLoserResult st.results loserId).bind DuelResult.winnerId).bind
      (findPlayer st.players) = some wp := by
    rw [hres]
    simp [Option.bind, hw, hwp]
  refine ⟨applyLoser_loser_points now st loserId l hfind, le_max_left 0 _, ?_, ?_⟩
  · by_cases hz : (max 0 (l.points - 1) : Int) = 0
    · refine ⟨fun _ => hz, fun _ => ?_⟩
      simp only [applyLoser, hfind, hwp']
      rw [if_pos hz]
      dsimp only
      rw [findLoserResult_markLoserResult _ _ _ (by intro r; rfl), hres]
      exact ⟨_, rfl, rfl⟩
    · refine ⟨?_, fun h => absurd h hz⟩
      rintro ⟨r', hr', hcap⟩
      simp only [applyLoser, hfind, hwp'] at hr'
      rw [if_neg hz] at hr'
      dsimp only at hr'
      rw [hres] at hr'
      obtain rfl : r0 = r' := by injection hr'
      rw [hr0] at hcap
      exact absurd hcap (by simp)
  · intro hz rec hrec hid
    simp only [applyLoser, hfind, hwp'] at hrec
    rw [if_pos hz] at hrec
    dsimp only at hrec
    exact captureCharacter_sets_ownership _ _ _ _ rec hrec hid

/-- Concrete persistent record fixture used by the witness theorems. -/
def mkDbRecord (od name : String) (points : Int) : DbRecord :=
  { od_identifier := od, name := name, points := points, clan_name := none,
    owner_id := none, daily_revenge_kills := 0, daily_max_streak := 0 }

/-- C2 witness: a loser at 1 point drops to exactly 0, never below, and
is captured by the winner (result flagged, record reassigned). -/
theorem applyLoser_capture_invariant_witness :
    let l : Player := mkPlayer "L" "odL" "L" 1 10 none none none none
    let w : Player := mkPlayer "W" "odW" "W" 5 20 (some PlayerAction.attack)
      (some "L") (some 3) (some AttackType.distance)
    let r : DuelResult := determineWinner w l
    let st : PassState := ⟨[l, w], [], [mkDbRecord "odL" "L" 1], [r]⟩
    (∃ l', findPlayer (applyLoser 0 st "L").players "L" = some l' ∧
      l'.points = max 0 ((1 : Int) - 1)) ∧
    0 ≤ max 0 ((1 : Int) - 1) ∧
    ((∃ r', findLoserResult (applyLoser 0 st "L").results "L" = some r' ∧
      r'.captured = true) ↔ max 0 ((1 : Int) - 1) = 0) ∧
    (max 0 ((1 : Int) - 1) = 0 →
      ∀ rec ∈ (applyLoser 0 st "L").db, rec.od_identifier = "odL" →
        rec.clan_name = none ∧ rec.owner_id = some "odW") := by
  intro l w r st
  exact applyLoser_capture_invariant 0 st "L" l r "W" w (by decide) (by decide)
    (by decide) (by decide) (by decide)

/-- A clan roster row as returned by `getClanMembers` (ordered by points;
the raw column names are the ones the battle logic reads). -/
structure Fighter where
  od_identifier : String
  name : String
  points : Int
  character_image : Nat
  player_number : Nat
deriving DecidableEq, Repr

/-- One duel record pushed by `executeClanBattleRound`. -/
structure ClanDuel where
  fighterA : Fighter
  fighterB : Fighter
  winner : Fighter
  loser : Fighter
  attackType : AttackType
deriving DecidableEq, Repr

/-- `executeClanBattleRound(battleId, clanAMembers, clanBMembers)`: the
two rosters arrive already shuffled (`shuffledA`/`shuffledB` are the
outcomes of the random sorts), fighters are paired position-for-position
up to the smaller length, and each pair's attack type comes from a coin
flip (the `flip` oracle indexed by pair position).  Distance: the higher
number wins (`>=` favours fighter A); melee: the lower number wins. -/
def executeClanBattleRound (shuffledA shuffledB : List Fighter)
    (flip : Nat → AttackType) : List ClanDuel :=
  ((shuffledA.zip shuffledB).enum).map fun p =>
    let i := p.1
    let fa := p.2.1
    let fb := p.2.2
    let t := flip i
    let winnerIsA : Bool :=
      match t with
      | AttackType.distance => decide (fb.player_number ≤ fa.player_number)
      | AttackType.melee => decide (fa.player_number ≤ fb.player_number)
    if winnerIsA then ⟨fa, fb, fa, fb, t⟩ else ⟨fa, fb, fb, fa, t⟩

/-- `roundAWins`: duels of a round whose winner is found in clan A's
snapshot (`clanAMembers.find(m => m.od_identifier === result.winner.id)`);
the remaining duels are clan B's (`roundBWins`). -/
def roundAWinsCount (clanA : List Fighter) (results : List ClanDuel) : Nat :=
  results.countP fun r =>
    (clanA.find? fun m => m.od_identifier == r.winner.od_identifier).isSome

/-- `pointChanges[id] = (pointChanges[id] || 0) + d` on the accumulator
object (one property per key). -/
def pcAdd : List (String × Int) → String → Int → List (String × Int)
  | [], k, d => [(k, d)]
  | e :: es, k, d => if e.1 = k then (e.1, e.2 + d) :: es else e :: pcAdd es k d

/-- The per-round accumulation: each duel adds winner +1 then loser −1. -/
def pcApplyResults (pc : List (String × Int)) (results : List ClanDuel) :
    List (String × Int) :=
  results.foldl
    (fun pc r => pcAdd (pcAdd pc r.winner.od_identifier 1) r.loser.od_identifier (-1)) pc

/-- Total of all accumulated point changes. -/
def pcSum (pc : List (String × Int)) : Int := (pc.map Prod.snd).sum

/-- The series state of the `startClanBattle` round loop: executed rounds
(with their round numbers), both series scores, and the deferred point
changes. -/
structure BattleAcc where
  rounds : List (Nat × List ClanDuel)
  clanAWins : Nat
  clanBWins : Nat
  pointChanges : List (String × Int)
deriving Repr

/-- The duels of one round: both rosters freshly shuffled for the round
(`shuffles roundNum`), with the round's coin flips. -/
def battleRoundResults (shuffles : Nat → List Fighter × List Fighter)
    (flips : Nat → Nat → AttackType) (roundNum : Nat) : List ClanDuel :=
  executeClanBattleRound (shuffles roundNum).1 (shuffles roundNum).2 (flips roundNum)

/-- One iteration of the `startClanBattle` round loop: run the round,
tally it (a strict majority of duels wins the round, an equal split
awards neither side), and accumulate the deferred point changes. -/
def battleStep (clanA : List Fighter) (shuffles : Nat → List Fighter × List Fighter)
    (flips : Nat → Nat → AttackType) (roundNum : Nat) (acc : BattleAcc) : BattleAcc :=
  let results := battleRoundResults shuffles flips roundNum
  let rA := roundAWinsCount clanA results
  let rB := results.length - rA
  { rounds := acc.rounds ++ [(roundNum, results)]
    clanAWins := if rB < rA then acc.clanAWins + 1 else acc.clanAWins
    clanBWins := if rA < rB then acc.clanBWins + 1 else acc.clanBWins
    pointChanges := pcApplyResults acc.pointChanges results }

/-- The `for (roundNum = 1; roundNum <= maxRounds; roundNum++)` loop of
`startClanBattle`: stop as soon as a side already has 2 round wins,
otherwise execute `battleStep`.  `fuel` is the number of remaining loop
iterations. -/
def runBattleRounds (clanA : List Fighter)
    (shuffles : Nat → List Fighter × List Fighter) (flips : Nat → Nat → AttackType) :
    Nat → Nat → BattleAcc → BattleAcc
  | 0, _, acc => acc
  | fuel + 1, roundNum, acc =>
    if 2 ≤ acc.clanAWins ∨ 2 ≤ acc.clanBWins then acc
    else runBattleRounds clanA shuffles flips fuel (roundNum + 1)
      (battleStep clanA shuffles flips roundNum acc)

/-- `startClanBattle`: best-of-three over the two roster snapshots
(maxRounds = 3, starting at round 1 with both scores 0 and no pending
point changes). -/
def startClanBattle (clanA clanB : List Fighter)
    (shuffles : Nat → List Fighter × List Fighter)
    (flips : Nat → Nat → AttackType) : BattleAcc :=
  runBattleRounds clanA shuffles flips 3 1 ⟨[], 0, 0, []⟩

/-- Settlement: `UPDATE players SET points = GREATEST(0, points + $1)`
for every accumulated change. -/
def applyPointChanges (db : List DbRecord) (pc : List (String × Int)) : List DbRecord :=
  pc.foldl (fun db e => db.map fun r =>
    if r.od_identifier = e.1 then { r with points := max 0 (r.points + e.2) } else r) db

/-- Total stored points of the persistent records. -/
def dbTotalPoints (db : List DbRecord) : Int := (db.map DbRecord.points).sum

/-- Recomputes both series scores from a list of executed rounds (the
round-winner rule of `startClanBattle`). -/
def tallyRounds (clanA : List Fighter) (rs : List (Nat × List ClanDuel)) : Nat × Nat :=
  rs.foldl
    (fun s r =>
      let rA := roundAWinsCount clanA r.2
      let rB := r.2.length - rA
      (if rB < rA then s.1 + 1 else s.1, if rA < rB then s.2 + 1 else s.2))
    (0, 0)

theorem tallyRounds_concat (clanA : List Fighter) (rs : List (Nat × List ClanDuel))
    (r : Nat × List ClanDuel) :
    tallyRounds clanA (rs ++ [r]) =
      ((if r.2.length - roundAWinsCount clanA r.2 < roundAWinsCount clanA r.2 then
          (tallyRounds clanA rs).1 + 1 else (tallyRounds clanA rs).1),
       (if roundAWinsCount clanA r.2 < r.2.length - roundAWinsCount clanA r.2 then
          (tallyRounds clanA rs).2 + 1 else (tallyRounds clanA rs).2)) := by
  simp [tallyRounds, List.foldl_append]

theorem battleRoundResults_length (shuffles : Nat → List Fighter × List Fighter)
    (flips : Nat → Nat → AttackType) (roundNum : Nat) :
    (battleRoundResults shuffles flips roundNum).length =
      min (shuffles roundNum).1.length (shuffles roundNum).2.length := by
  simp [battleRoundResults, executeClanBattleRound]

theorem battleStep_score (clanA : List Fighter)
    (shuffles : Nat → List Fighter × List Fighter) (flips : Nat → Nat → AttackType)
    (roundNum : Nat) (acc : BattleAcc)
    (hacc : (acc.clanAWins, acc.clanBWins) = tallyRounds clanA acc.rounds) :
    ((battleStep clanA shuffles flips roundNum acc).clanAWins,
     (battleStep clanA shuffles flips roundNum acc).clanBWins) =
      tallyRounds clanA (battleStep clanA shuffles flips roundNum acc).rounds := by
  simp only [battleStep]
  rw [tallyRounds_concat, ← hacc]

theorem runBattleRounds_spec (clanA clanB : List Fighter)
    (shuffles : Nat → List Fighter × List Fighter) (flips : Nat → Nat → AttackType)
    (hshuf : ∀ n, ((shuffles n).1).Perm clanA ∧ ((shuffles n).2).Perm clanB) :
    ∀ (fuel roundNum : Nat) (acc : BattleAcc),
      (acc.clanAWins, acc.clanBWins) = tallyRounds clanA acc.rounds →
      ∃ extra,
        (runBattleRounds clanA shuffles flips fuel roundNum acc).rounds =
          acc.rounds ++ extra ∧
        extra.length ≤ fuel ∧
        ((runBattleRounds clanA shuffles flips fuel roundNum acc).clanAWins,
         (runBattleRounds clanA shuffles flips fuel roundNum acc).clanBWins) =
          tallyRounds clanA (runBattleRounds clanA shuffles flips fuel roundNum acc).rounds ∧
        (∀ r ∈ extra, r.2.length = min clanA.length clanB.length) ∧
        (∀ k, acc.rounds.length ≤ k →
          k < (runBattleRounds clanA shuffles flips fuel roundNum acc).rounds.length →
          (tallyRounds clanA
            ((runBattleRounds clanA shuffles flips fuel roundNum acc).rounds.take k)).1 < 2 ∧
          (tallyRounds clanA
            ((runBattleRounds clanA shuffles flips fuel roundNum acc).rounds.take k)).2 < 2) := by
  intro fuel
  induction fuel with
  | zero =>
    intro roundNum acc hacc
    refine ⟨[], by simp [runBattleRounds], by simp, ?_, by simp, ?_⟩
    · simpa [runBattleRounds] using hacc
    · intro k hk1 hk2
      simp only [runBattleRounds] at hk2
      omega
  | succ fuel ih =>
    intro roundNum acc hacc
    by_cases hdec : 2 ≤ acc.clanAWins ∨ 2 ≤ acc.clanBWins
    · have heq : runBattleRounds clanA shuffles flips (fuel + 1) roundNum acc = acc := by
        simp only [runBattleRounds]
        rw [if_pos hdec]
      refine ⟨[], by simp [heq], by simp, ?_, by simp, ?_⟩
      · rw [heq]; exact hacc
      · intro k hk1 hk2
        rw [heq] at hk2
        omega
    · have heq : runBattleRounds clanA shuffles flips (fuel + 1) roundNum acc =
          runBattleRounds clanA shuffles flips fuel (roundNum + 1)
            (battleStep clanA shuffles flips roundNum acc) := by
        simp only [runBattleRounds]
        rw [if_neg hdec]
      obtain ⟨extra', h1, h2, h3, h4, h5⟩ := ih (roundNum + 1)
        (battleStep clanA shuffles flips roundNum acc)
        (battleStep_score clanA shuffles flips roundNum acc hacc)
      have hstep_rounds : (battleStep clanA shuffles flips roundNum acc).rounds =
          acc.rounds ++ [(roundNum, battleRoundResults shuffles flips roundNum)] := rfl
      refine ⟨(roundNum, battleRoundResults shuffles flips roundNum) :: extra', ?_, ?_,
        ?_, ?_, ?_⟩
      · rw [heq, h1, hstep_rounds]
        simp
      · simpa using Nat.succ_le_succ h2
      · rw [heq]; exact h3
      · intro r hr
        rcases List.mem_cons.mp hr with hhd | htl
        · subst hhd
          rw [battleRoundResults_length]
          rw [((hshuf roundNum).1).length_eq, ((hshuf roundNum).2).length_eq]
        · exact h4 r htl
      · intro k hk1 hk2
        rw [heq] at hk2 ⊢
        rcases Nat.eq_or_lt_of_le hk1 with heqk | hltk
        · have htake : ((runBattleRounds clanA shuffles flips fuel (roundNum + 1)
              (battleStep clanA shuffles flips roundNum acc)).rounds.take k) = acc.rounds := by
            rw [h1, hstep_rounds, ← heqk, List.append_assoc]
            exact List.take_left acc.rounds _
          rw [htake, ← hacc]
          push_neg at hdec
          exact ⟨hdec.1, hdec.2⟩
        · refine h5 k ?_ hk2
          rw [hstep_rounds]
          simp
          omega

theorem tallyRounds_take_tie (clanA : List Fighter) (rs : List (Nat × List ClanDuel))
    (k : Nat) (hk : k < rs.length)
    (htie : roundAWinsCount clanA (rs.get ⟨k, hk⟩).2 =
      (rs.get ⟨k, hk⟩).2.length - roundAWinsCount clanA (rs.get ⟨k, hk⟩).2) :
    tallyRounds clanA (rs.take (k + 1)) = tallyRounds clanA (rs.take k) := by
  have hsplit : rs.take (k + 1) = rs.take k ++ [rs.get ⟨k, hk⟩] := by
    rw [(List.take_concat_get rs k hk).symm, List.concat_eq_append]
    rfl
  rw [hsplit, tallyRounds_concat, ← htie]
  simp

/-- C6: a clan battle series over roster snapshots A and B (each round's
shuffles being permutations of the snapshots): at most 3 rounds run;
every executed round has exactly `min |A| |B|` duels; the series scores
are the round tallies; a round is only executed while both scores are
still below 2 (stop as soon as either clan reaches 2 round wins); and a
round whose duel wins split equally changes neither score. -/
theorem startClanBattle_spec (clanA clanB : List Fighter)
    (shuffles : Nat → List Fighter × List Fighter) (flips : Nat → Nat → AttackType)
    (hshuf : ∀ n, ((shuffles n).1).Perm clanA ∧ ((shuffles n).2).Perm clanB) :
    (startClanBattle clanA clanB shuffles flips).rounds.length ≤ 3 ∧
    (∀ r ∈ (startClanBattle clanA clanB shuffles flips).rounds,
      r.2.length = min clanA.length clanB.length) ∧
    ((startClanBattle clanA clanB shuffles flips).clanAWins,
     (startClanBattle clanA clanB shuffles flips).clanBWins) =
      tallyRounds clanA (startClanBattle clanA clanB shuffles flips).rounds ∧
    (∀ k, k < (startClanBattle clanA clanB shuffles flips).rounds.length →
      (tallyRounds clanA
        ((startClanBattle clanA clanB shuffles flips).rounds.take k)).1 < 2 ∧
      (tallyRounds clanA
        ((startClanBattle clanA clanB shuffles flips).rounds.take k)).2 < 2) ∧
    (∀ (k : Nat) (hk : k < (startClanBattle clanA clanB shuffles flips).rounds.length),
      roundAWinsCount clanA ((startClanBattle clanA clanB shuffles flips).rounds.get ⟨k, hk⟩).2 =
        ((startClanBattle clanA clanB shuffles flips).rounds.get ⟨k, hk⟩).2.length -
          roundAWinsCount clanA
            ((startClanBattle clanA clanB shuffles flips).rounds.get ⟨k, hk⟩).2 →
      tallyRounds clanA ((startClanBattle clanA clanB shuffles flips).rounds.take (k + 1)) =
        tallyRounds clanA ((startClanBattle clanA clanB shuffles flips).rounds.take k)) := by
  obtain ⟨extra, h1, h2, h3, h4, h5⟩ :=
    runBattleRounds_spec clanA clanB shuffles flips hshuf 3 1 ⟨[], 0, 0, []⟩ rfl
  have hrounds : (startClanBattle clanA clanB shuffles flips).rounds = extra := by
    simpa [startClanBattle] using h1
  refine ⟨?_, ?_, ?_, ?_, ?_⟩
  · rw [hrounds]; exact h2
  · intro r hr
    exact h4 r (by rwa [hrounds] at hr)
  · exact h3
  · intro k hk
    exact h5 k (Nat.zero_le k) hk
  · intro k hk htie
    exact tallyRounds_take_tie clanA _ k hk htie

/-- Concrete two-member and one-member rosters for the C6 witness. -/
def cbA : List Fighter := [⟨"a1", "a1", 5, 1, 10⟩, ⟨"a2", "a2", 5, 1, 20⟩]

def cbB : List Fighter := [⟨"b1", "b1", 5, 1, 15⟩]

def cbShuffles : Nat → List Fighter × List Fighter := fun _ => (cbA, cbB)

def cbFlips : Nat → Nat → AttackType := fun _ _ => AttackType.distance

/-- C6 witness: the series properties hold on a concrete 2-vs-1 battle
with identity shuffles and all-distance flips. -/
theorem startClanBattle_spec_witness :
    (startClanBattle cbA cbB cbShuffles cbFlips).rounds.length ≤ 3 ∧
    (∀ r ∈ (startClanBattle cbA cbB cbShuffles cbFlips).rounds,
      r.2.length = min cbA.length cbB.length) ∧
    ((startClanBattle cbA cbB cbShuffles cbFlips).clanAWins,
     (startClanBattle cbA cbB cbShuffles cbFlips).clanBWins) =
      tallyRounds cbA (startClanBattle cbA cbB cbShuffles cbFlips).rounds ∧
    (∀ k, k < (startClanBattle cbA cbB cbShuffles cbFlips).rounds.length →
      (tallyRounds cbA
        ((startClanBattle cbA cbB cbShuffles cbFlips).rounds.take k)).1 < 2 ∧
      (tallyRounds cbA
        ((startClanBattle cbA cbB cbShuffles cbFlips).rounds.take k)).2 < 2) ∧
    (∀ (k : Nat) (hk : k < (startClanBattle cbA cbB cbShuffles cbFlips).rounds.length),
      roundAWinsCount cbA ((startClanBattle cbA cbB cbShuffles cbFlips).rounds.get ⟨k, hk⟩).2 =
        ((startClanBattle cbA cbB cbShuffles cbFlips).rounds.get ⟨k, hk⟩).2.length -
          roundAWinsCount cbA
            ((startClanBattle cbA cbB cbShuffles cbFlips).rounds.get ⟨k, hk⟩).2 →
      tallyRounds cbA ((startClanBattle cbA cbB cbShuffles cbFlips).rounds.take (k + 1)) =
        tallyRounds cbA ((startClanBattle cbA cbB cbShuffles cbFlips).rounds.take k)) :=
  startClanBattle_spec cbA cbB cbShuffles cbFlips
    (fun _ => ⟨List.Perm.refl cbA, List.Perm.refl cbB⟩)

theorem pcSum_pcAdd (pc : List (String × Int)) (k : String) (d : Int) :
    pcSum (pcAdd pc k d) = pcSum pc + d := by
  induction pc with
  | nil => simp [pcAdd, pcSum]
  | cons e es ih =>
    have hcons : ∀ (x : String × Int) (xs : List (String × Int)),
        pcSum (x :: xs) = x.2 + pcSum xs := by
      intro x xs
      simp [pcSum]
    by_cases h : e.1 = k
    · simp [pcAdd, pcSum, h]
      ring
    · have h2 : pcAdd (e :: es) k d = e :: pcAdd es k d := by simp [pcAdd, h]
      rw [h2, hcons, hcons, ih]
      ring

theorem pcSum_pcApplyResults (pc : List (String × Int)) (results : List ClanDuel) :
    pcSum (pcApplyResults pc results) = pcSum pc := by
  induction results generalizing pc with
  | nil => rfl
  | cons r rs ih =>
    simp only [pcApplyResults, List.foldl_cons]
    have : List.foldl
        (fun pc r => pcAdd (pcAdd pc r.winner.od_identifier 1) r.loser.od_identifier (-1))
        (pcAdd (pcAdd pc r.winner.od_identifier 1) r.loser.od_identifier (-1)) rs =
        pcApplyResults (pcAdd (pcAdd pc r.winner.od_identifier 1) r.loser.od_identifier (-1)) rs := rfl
    rw [this, ih, pcSum_pcAdd, pcSum_pcAdd]
    ring

theorem pcSum_battleStep (clanA : List Fighter)
    (shuffles : Nat → List Fighter × List Fighter) (flips : Nat → Nat → AttackType)
    (roundNum : Nat) (acc : BattleAcc) :
    pcSum (battleStep clanA shuffles flips roundNum acc).pointChanges =
      pcSum acc.pointChanges := by
  simp only [battleStep]
  exact pcSum_pcApplyResults _ _

theorem pcSum_runBattleRounds (clanA : List Fighter)
    (shuffles : Nat → List Fighter × List Fighter) (flips : Nat → Nat → AttackType) :
    ∀ (fuel roundNum : Nat) (acc : BattleAcc),
      pcSum (runBattleRounds clanA shuffles flips fuel roundNum acc).pointChanges =
        pcSum acc.pointChanges := by
  intro fuel
  induction fuel with
  | zero => intro _ _; rfl
  | succ fuel ih =>
    intro roundNum acc
    by_cases hdec : 2 ≤ acc.clanAWins ∨ 2 ≤ acc.clanBWins
    · simp only [runBattleRounds]
      rw [if_pos hdec]
    · simp only [runBattleRounds]
      rw [if_neg hdec, ih, pcSum_battleStep]

/-- C7 amended: over a whole clan battle series the ACCUMULATED point
changes sum to zero (each duel contributes winner +1 and loser −1); the
realized deltas to the stored balances coincide with them only when no
record is floored at 0 at settlement, and the realized total can exceed
zero when the floor binds. -/
theorem startClanBattle_pointChanges_sum_zero (clanA clanB : List Fighter)
    (shuffles : Nat → List Fighter × List Fighter) (flips : Nat → Nat → AttackType) :
    pcSum (startClanBattle clanA clanB shuffles flips).pointChanges = 0 := by
  rw [startClanBattle, pcSum_runBattleRounds]
  rfl

/-- C7 counterexample: a 1-vs-1 series in which the loser sits at 0
points.  The settlement (`GREATEST(0, points + change)`) floors the
loser at 0, so the realized total point delta across both clans is +2,
not 0 — the claim's "total point delta over all affected player records
is 0" fails on the code. -/
theorem clanBattle_settlement_total_not_zero :
    dbTotalPoints (applyPointChanges [mkDbRecord "a1" "a1" 5, mkDbRecord "b1" "b1" 0]
        (startClanBattle [⟨"a1", "a1", 5, 1, 10⟩] [⟨"b1", "b1", 0, 1, 0⟩]
          (fun _ => ([⟨"a1", "a1", 5, 1, 10⟩], [⟨"b1", "b1", 0, 1, 0⟩]))
          (fun _ _ => AttackType.distance)).pointChanges) ≠
      dbTotalPoints [mkDbRecord "a1" "a1" 5, mkDbRecord "b1" "b1" 0] := by
  decide

/-- An entry of the online leaderboard payload built by
`getLeaderboard` — exactly the fields mapped out in the source
("hide player_number"). -/
structure LeaderboardEntry where
  id : String
  odIdentifier : String
  name : String
  points : Int
  streak : Nat
  inPit : Bool
  characterImage : Nat
  clanName : Option String
deriving DecidableEq, Repr

/-- Stable descending insertion on points: models the comparator
`(a, b) => b.points - a.points` given to the (stable) `Array.sort`. -/
def insertByPointsDesc (p : Player) : List Player → List Player
  | [] => [p]
  | q :: rest =>
    if q.points ≤ p.points then p :: q :: rest else q :: insertByPointsDesc p rest

/-- Stable sort by points, descending. -/
def sortByPointsDesc : List Player → List Player
  | [] => []
  | p :: ps => insertByPointsDesc p (sortByPointsDesc ps)

/-- `getLeaderboard()`: online players sorted by points descending,
projected to the public fields. -/
def getLeaderboard (players : List Player) : List LeaderboardEntry :=
  (sortByPointsDesc players).map fun p =>
    { id := p.id, odIdentifier := p.odIdentifier, name := p.name, points := p.points,
      streak := p.streak, inPit := p.inPit, characterImage := p.characterImage,
      clanName := p.clanName }

/-- An entry of the pit occupant payload built by `getPitPlayers`. -/
structure PitEntry where
  id : String
  odIdentifier : String
  name : String
  points : Int
  streak : Nat
  characterImage : Nat
  action : String
  isRevenge : Bool
deriving DecidableEq, Repr

/-- The viewer's revenge hint: `myRevengeTarget && myRevengeTarget.expiresAt
> now ? myRevengeTarget.odIdentifier : null` (with `revengeTargets.get`
of a missing viewer giving nothing). -/
def liveRevengeHint (rt : List (String × RevengeEntry)) (myOd : Option String)
    (now : Nat) : Option String :=
  match myOd.bind (rtGet rt) with
  | some e => if now < e.expiresAt then some e.odIdentifier else none
  | none => none

/-- The projection of one in-pit occupant to its payload entry, with the
action classified idle/defending/attacking. -/
def pitEntryOf (isMyRevenge : Option String) (p : Player) : PitEntry :=
  { id := p.id, odIdentifier := p.odIdentifier, name := p.name, points := p.points,
    streak := p.streak, characterImage := p.characterImage,
    action := match p.action with
      | none => "idle"
      | some PlayerAction.defend => "defending"
      | some PlayerAction.attack => "attacking",
    isRevenge := decide (some p.odIdentifier = isMyRevenge) }

/-- `getPitPlayers(requestingPlayerId)`: the in-pit occupants with their
payload fields and the viewer's live revenge hint. -/
def getPitPlayers (players : List Player) (rt : List (String × RevengeEntry))
    (requestingPlayerId : String) (now : Nat) : List PitEntry :=
  let isMyRevenge := liveRevengeHint rt
    ((findPlayer players requestingPlayerId).map Player.odIdentifier) now
  (players.filter fun p => p.inPit).map (pitEntryOf isMyRevenge)

/-- Statement device for the confidentiality theorem: forget a session's
draw number. -/
def erasePlayerNumber (p : Player) : Player := { p with playerNumber := 0 }

theorem insertByPointsDesc_erase (p : Player) (l : List Player) :
    insertByPointsDesc (erasePlayerNumber p) (l.map erasePlayerNumber) =
      (insertByPointsDesc p l).map erasePlayerNumber := by
  induction l with
  | nil => rfl
  | cons q qs ih =>
    have hq : (erasePlayerNumber q).points = q.points := rfl
    have hp : (erasePlayerNumber p).points = p.points := rfl
    by_cases h : q.points ≤ p.points
    · simp only [List.map_cons, insertByPointsDesc, hq, hp, if_pos h]
    · simp only [List.map_cons, insertByPointsDesc, hq, hp, if_neg h, ih]

theorem sortByPointsDesc_erase (l : List Player) :
    sortByPointsDesc (l.map erasePlayerNumber) =
      (sortByPointsDesc l).map erasePlayerNumber := by
  induction l with
  | nil => rfl
  | cons p ps ih =>
    simp only [List.map_cons, sortByPointsDesc, ih]
    exact insertByPointsDesc_erase p (sortByPointsDesc ps)

theorem findPlayer_map_erase (ps : List Player) (i : String) :
    findPlayer (ps.map erasePlayerNumber) i = (findPlayer ps i).map erasePlayerNumber := by
  induction ps with
  | nil => rfl
  | cons p ps ih =>
    by_cases h : p.id = i
    · simp [findPlayer, erasePlayerNumber, h]
    · simpa [findPlayer, erasePlayerNumber, h] using ih

/-- C8 amended: the leaderboard and the pit occupant payloads carry no
draw numbers — both are unchanged when every session's draw number is
erased — but battle-result events DO carry draw numbers (see the
counterexample theorem). -/
theorem pitEntries_map_erase (ps : List Player) (isMy : Option String) :
    ((ps.map erasePlayerNumber).filter (fun p => p.inPit)).map (pitEntryOf isMy) =
      (ps.filter (fun p => p.inPit)).map (pitEntryOf isMy) := by
  induction ps with
  | nil => rfl
  | cons p ps ih =>
    have hin : (erasePlayerNumber p).inPit = p.inPit := rfl
    have hproj : pitEntryOf isMy (erasePlayerNumber p) = pitEntryOf isMy p := rfl
    cases hp : p.inPit
    · simp only [List.map_cons, List.filter_cons, hin, hp, Bool.false_eq_true, if_false,
        ite_false]
      exact ih
    · simp only [List.map_cons, List.filter_cons, hin, hp, if_true, ite_true]
      rw [ih, hproj]

theorem broadcast_payloads_ignore_draw_numbers (players : List Player)
    (rt : List (String × RevengeEntry)) (req : String) (now : Nat) :
    getLeaderboard (players.map erasePlayerNumber) = getLeaderboard players ∧
    getPitPlayers (players.map erasePlayerNumber) rt req now =
      getPitPlayers players rt req now := by
  constructor
  · simp only [getLeaderboard, sortByPointsDesc_erase, List.map_map]
    rfl
  · simp only [getPitPlayers, findPlayer_map_erase]
    have hod : ((findPlayer players req).map erasePlayerNumber).map Player.odIdentifier =
        (findPlayer players req).map Player.odIdentifier := by
      cases findPlayer players req <;> rfl
    rw [hod]
    exact pitEntries_map_erase players _

/-- C8 counterexample: the `battleResults` batch emitted to all clients
contains `attackerNumber`/`defenderNumber`.  A concrete pass exposes the
target's draw number 90 in the payload, and two states that differ only
in that draw number produce different payloads. -/
theorem battleResults_expose_draw_numbers :
    let atk : Player := mkPlayer "A" "odA" "A" 5 50 (some PlayerAction.attack)
      (some "T") (some 1) (some AttackType.distance)
    let tgt : Player := mkPlayer "T" "odT" "T" 5 90 none none none none
    let tgt2 : Player := mkPlayer "T" "odT" "T" 5 91 none none none none
    (∃ r ∈ (processAllAttacks 0 ⟨[atk, tgt], [], []⟩).2, r.defenderNumber = 90) ∧
    (processAllAttacks 0 ⟨[atk, tgt], [], []⟩).2 ≠
      (processAllAttacks 0 ⟨[atk, tgt2], [], []⟩).2 ∧
    [atk, tgt2].map erasePlayerNumber = [atk, tgt].map erasePlayerNumber := by
  decide

theorem rtGet_rtDelete_ne (m : List (String × RevengeEntry)) (k k' : String)
    (hne : k' ≠ k) : rtGet (rtDelete m k) k' = rtGet m k' := by
  induction m with
  | nil => rfl
  | cons e es ih =>
    by_cases h : e.1 = k
    · have h2 : ¬ e.1 = k' := fun hc => hne (hc.symm.trans h)
      simp only [rtDelete, rtGet, if_pos h, if_neg h2]
    · by_cases h2 : e.1 = k'
      · simp only [rtDelete, rtGet, if_neg h, if_pos h2]
      · simp only [rtDelete, rtGet, if_neg h, if_neg h2]
        exact ih

theorem bonusGet_bonusAdd_ne (m : List (String × Nat)) (k k' : String) (d : Nat)
    (hne : k' ≠ k) : bonusGet (bonusAdd m k d) k' = bonusGet m k' := by
  induction m with
  | nil => simp only [bonusAdd, bonusGet, if_neg (Ne.symm hne)]
  | cons e es ih =>
    by_cases h : e.1 = k
    · have h2 : ¬ e.1 = k' := fun hc => hne (hc.symm.trans h)
      simp only [bonusAdd, bonusGet, if_pos h, if_neg h2]
    · by_cases h2 : e.1 = k'
      · simp only [bonusAdd, bonusGet, if_neg h, if_pos h2]
      · simp only [bonusAdd, bonusGet, if_neg h, if_neg h2]
        exact ih

theorem bonusGet_bonusAdd_self (m : List (String × Nat)) (k : String) (d : Nat) :
    bonusGet (bonusAdd m k d) k = bonusGet m k + d := by
  induction m with
  | nil => simp [bonusAdd, bonusGet]
  | cons e es ih =>
    by_cases h : e.1 = k
    · simp only [bonusAdd, bonusGet, if_pos h]
    · simp only [bonusAdd, bonusGet, if_neg h]
      exact ih

theorem setAdd_of_not_mem (s : List String) (x : String) (h : x ∉ s) :
    setAdd s x = s ++ [x] := by
  simp [setAdd, h]

theorem setAdd_nodup (s : List String) (x : String) (h : s.Nodup) :
    (setAdd s x).Nodup := by
  by_cases hx : x ∈ s
  · simpa [setAdd, hx] using h
  · rw [setAdd_of_not_mem s x hx]
    simp [List.nodup_append, h, hx]

theorem processGangAttacker_losers (target : Player) (now : Nat)
    (st : ResolutionState) (attacker : Player) :
    (processGangAttacker target now st attacker).losers = st.losers := rfl

theorem gangFold_losers (target : Player) (now : Nat) (as : List Player)
    (st : ResolutionState) :
    (as.foldl (processGangAttacker target now) st).losers = st.losers := by
  induction as generalizing st with
  | nil => rfl
  | cons a as ih =>
    simp only [List.foldl_cons]
    rw [ih, processGangAttacker_losers]

theorem processSingle_losers_cases (st : ResolutionState) (now : Nat)
    (a t : Player) :
    (processSingle st now a t).losers = st.losers ∨
    ∃ x, (processSingle st now a t).losers = setAdd st.losers x := by
  by_cases hmem : a.id ∈ st.losers
  · exact Or.inl (by simp [processSingle, hmem])
  · simp only [processSingle, if_neg hmem]
    rcases hl : (determineWinner a t).loserId with _ | lid
    · exact Or.inl rfl
    · exact Or.inr ⟨lid, rfl⟩

theorem processGroup_losers_nodup (ps : List Player) (now : Nat)
    (st : ResolutionState) (grp : String × List Player) (h : st.losers.Nodup) :
    (processGroup ps now st grp).losers.Nodup := by
  rcases hf : findPlayer ps grp.1 with _ | target
  · simpa [processGroup, hf] using h
  · by_cases hin : target.inPit = false
    · simpa [processGroup, hf, hin] using h
    · by_cases hgang : 1 < grp.2.length
      · have : (processGroup ps now st grp).losers = setAdd st.losers grp.1 := by
          simp only [processGroup, hf, if_neg hin, if_pos hgang]
          rw [gangFold_losers]
        rw [this]
        exact setAdd_nodup _ _ h
      · rcases hgl : grp.2 with _ | ⟨attacker, rest⟩
        · simpa [processGroup, hf, hin, hgl] using h
        · have hrest : rest = [] := by
            rw [hgl] at hgang
            simp only [List.length_cons] at hgang
            have : rest.length = 0 := by omega
            exact List.length_eq_zero.mp this
          have heq : processGroup ps now st grp = processSingle st now attacker target := by
            simp [processGroup, hf, hin, hgl, hrest]
          rw [heq]
          rcases processSingle_losers_cases st now attacker target with hc | ⟨x, hc⟩
          · rw [hc]; exact h
          · rw [hc]; exact setAdd_nodup _ _ h

theorem resolvePass_losers_nodup (now : Nat) (st : PitState) :
    (resolvePass now st).losers.Nodup := by
  have : ∀ (groups : List (String × List Player)) (rs : ResolutionState),
      rs.losers.Nodup →
      (groups.foldl (processGroup st.players now) rs).losers.Nodup := by
    intro groups
    induction groups with
    | nil => intro rs h; exact h
    | cons g gs ih =>
      intro rs h
      simp only [List.foldl_cons]
      exact ih _ (processGroup_losers_nodup st.players now rs g h)
  exact this (groupAttacks st.players) (initResolution st.revengeTargets) List.nodup_nil

theorem foldl_applyLoser_preserves (now : Nat) (xs : List String) (st : PassState)
    (i : String) (hx : i ∉ xs) :
    findPlayer (xs.foldl (applyLoser now) st).players i = findPlayer st.players i := by
  induction xs generalizing st with
  | nil => rfl
  | cons j js ih =>
    simp only [List.foldl_cons]
    rw [ih _ (fun h => hx (List.mem_cons_of_mem j h)),
        applyLoser_preserves_other now st j i
          (fun h => hx (h ▸ List.mem_cons_self j js))]

theorem foldl_applyWinner_preserves_mem (losers : List String)
    (bonuses : List (String × Nat)) (ws : List String) (st : PassState) (i : String)
    (hmem : i ∈ losers) :
    findPlayer (ws.foldl (applyWinner losers bonuses) st).players i =
      findPlayer st.players i := by
  induction ws generalizing st with
  | nil => rfl
  | cons w ws ih =>
    simp only [List.foldl_cons]
    rw [ih]
    by_cases hw : i = w
    · rw [← hw, applyWinner_mem_losers losers bonuses st i hmem]
    · exact applyWinner_preserves_other losers bonuses st w i hw

theorem foldl_applyWinner_preserves_notmem (losers : List String)
    (bonuses : List (String × Nat)) (ws : List String) (st : PassState) (i : String)
    (hx : i ∉ ws) :
    findPlayer (ws.foldl (applyWinner losers bonuses) st).players i =
      findPlayer st.players i := by
  induction ws generalizing st with
  | nil => rfl
  | cons w ws ih =>
    simp only [List.foldl_cons]
    rw [ih _ (fun h => hx (List.mem_cons_of_mem w h)),
        applyWinner_preserves_other losers bonuses st w i
          (fun h => hx (h ▸ List.mem_cons_self w ws))]

/-- C5 amended: a player recorded as a loser during the resolution loop
of a pass is never CREDITED winner rewards in the same pass — its final
points are exactly `max 0 (points − 1)` (the winner loop skips any
winner that is also a loser) — and a prior loser that is the SOLE
attacker on a target is skipped outright; but in a gang-attack group a
prior loser is still recorded as a winning attacker in the results batch
(see the counterexample theorem). -/
theorem pass_loser_never_credited :
    (∀ (now : Nat) (st : PitState) (loserId : String) (l : Player),
      loserId ∈ (resolvePass now st).losers →
      findPlayer st.players loserId = some l →
      ∃ l', findPlayer (processAllAttacks now st).1.players loserId = some l' ∧
        l'.points = max 0 (l.points - 1)) ∧
    (∀ (st : ResolutionState) (now : Nat) (a t : Player),
      a.id ∈ st.losers → processSingle st now a t = st) := by
  constructor
  · intro now st loserId l hmem hfind
    have hnodup : (resolvePass now st).losers.Nodup := resolvePass_losers_nodup now st
    obtain ⟨s, t, hsplit⟩ := List.append_of_mem hmem
    have hnod2 := hsplit ▸ hnodup
    have hs : loserId ∉ s := by
      intro hc
      rcases List.nodup_append.mp hnod2 with ⟨_, _, hdisj⟩
      exact hdisj hc (List.mem_cons_self loserId t)
    have ht : loserId ∉ t := by
      rcases List.nodup_append.mp hnod2 with ⟨_, hct, _⟩
      exact (List.nodup_cons.mp hct).1
    have hplayers : (processAllAttacks now st).1.players =
        ((resolvePass now st).winners.foldl
          (applyWinner (resolvePass now st).losers (resolvePass now st).winnerBonuses)
          ((resolvePass now st).losers.foldl (applyLoser now)
            { players := st.players, revengeTargets := (resolvePass now st).revengeTargets,
              db := st.db, results := (resolvePass now st).results })).players := rfl
    rw [hplayers, foldl_applyWinner_preserves_mem _ _ _ _ _ hmem, hsplit,
        List.foldl_append, List.foldl_cons, foldl_applyLoser_preserves now t _ _ ht]
    have hfind2 : findPlayer ((s.foldl (applyLoser now)
        { players := st.players, revengeTargets := (resolvePass now st).revengeTargets,
          db := st.db, results := (resolvePass now st).results } : PassState)).players
        loserId = some l := by
      rw [foldl_applyLoser_preserves now s _ _ hs]
      exact hfind
    exact applyLoser_loser_points now _ loserId l hfind2
  · intro st now a t hmem
    simp [processSingle, hmem]

/-- C5 counterexample: players A1 and A2 gang-attack X while X and C
gang-attack Y.  X loses in the earlier grouping, yet the same pass still
records X as a winning attacker of the second gang attack — the claim's
"never also recorded ... as a winning attacker elsewhere in the same
pass" fails on the code (X is only denied the point credit). -/
theorem gang_loser_still_recorded_as_winner :
    let a1 : Player := mkPlayer "A1" "odA1" "A1" 5 10 (some PlayerAction.attack)
      (some "X") (some 1) (some AttackType.distance)
    let a2 : Player := mkPlayer "A2" "odA2" "A2" 5 11 (some PlayerAction.attack)
      (some "X") (some 1) (some AttackType.distance)
    let x : Player := mkPlayer "X" "odX" "X" 5 12 (some PlayerAction.attack)
      (some "Y") (some 1) (some AttackType.distance)
    let c : Player := mkPlayer "C" "odC" "C" 5 13 (some PlayerAction.attack)
      (some "Y") (some 1) (some AttackType.distance)
    let y : Player := mkPlayer "Y" "odY" "Y" 5 14 none none none none
    let st : PitState := ⟨[a1, a2, x, c, y], [], []⟩
    "X" ∈ (resolvePass 0 st).losers ∧
    (∃ r ∈ (processAllAttacks 0 st).2, r.loserId = some "X" ∧ r.reason = "gang attack") ∧
    (∃ r ∈ (processAllAttacks 0 st).2, r.winnerId = some "X" ∧ r.reason = "gang attack") ∧
    (∃ l', findPlayer (processAllAttacks 0 st).1.players "X" = some l' ∧
      l'.points = 4) := by
  decide

/-- C5 amended witness: in the concrete gang-of-gangs pass above, the
prior loser X ends at exactly `max 0 (5 − 1) = 4` points (no winner
credit), and a sole attacker that already lost is skipped outright. -/
theorem pass_loser_never_credited_witness :
    (∃ l', findPlayer (processAllAttacks 0
        (⟨[mkPlayer "A1" "odA1" "A1" 5 10 (some PlayerAction.attack) (some "X") (some 1)
             (some AttackType.distance),
           mkPlayer "A2" "odA2" "A2" 5 11 (some PlayerAction.attack) (some "X") (some 1)
             (some AttackType.distance),
           mkPlayer "X" "odX" "X" 5 12 (some PlayerAction.attack) (some "Y") (some 1)
             (some AttackType.distance),
           mkPlayer "C" "odC" "C" 5 13 (some PlayerAction.attack) (some "Y") (some 1)
             (some AttackType.distance),
           mkPlayer "Y" "odY" "Y" 5 14 none none none none], [], []⟩ : PitState)).1.players
        "X" = some l' ∧
      l'.points = max 0 ((5 : Int) - 1)) ∧
    processSingle ⟨[], ["Z"], [], [], []⟩ 0
        (mkPlayer "Z" "odZ" "Z" 5 10 (some PlayerAction.attack) (some "W") (some 1)
          (some AttackType.distance))
        (mkPlayer "W" "odW" "W" 5 11 none none none none) =
      ⟨[], ["Z"], [], [], []⟩ := by
  constructor
  · exact pass_loser_never_credited.1 0 _ "X"
      (mkPlayer "X" "odX" "X" 5 12 (some PlayerAction.attack) (some "Y") (some 1)
        (some AttackType.distance)) (by decide) (by decide)
  · exact pass_loser_never_credited.2 _ 0 _ _ (by decide)

theorem isLiveRevenge_congr (m m' : List (String × RevengeEntry)) (aod tod : String)
    (now : Nat) (h : rtGet m aod = rtGet m' aod) :
    isLiveRevenge m aod tod now = isLiveRevenge m' aod tod now := by
  simp [isLiveRevenge, h]

theorem findPlayer_append_left (as ts : List Player) (i : String) (p : Player)
    (h : findPlayer as i = some p) : findPlayer (as ++ ts) i = some p := by
  induction as with
  | nil => exact absurd h (by simp [findPlayer])
  | cons a as ih =>
    by_cases ha : a.id = i
    · simpa [findPlayer, ha] using h
    · rw [List.cons_append]
      simp only [findPlayer, if_neg ha] at h ⊢
      exact ih h

theorem findPlayer_append_skip (as ts : List Player) (i : String)
    (h : ∀ a ∈ as, a.id ≠ i) : findPlayer (as ++ ts) i = findPlayer ts i := by
  induction as with
  | nil => rfl
  | cons a as ih =>
    simp only [List.cons_append, findPlayer, h a (List.mem_cons_self a as), ite_false,
      if_neg]
    exact ih (fun b hb => h b (List.mem_cons_of_mem a hb))

theorem findPlayer_of_mem_nodup (as : List Player) (a : Player)
    (hmem : a ∈ as) (hnodup : (as.map Player.id).Nodup) :
    findPlayer as a.id = some a := by
  induction as with
  | nil => exact absurd hmem (List.not_mem_nil a)
  | cons b bs ih =>
    rcases List.mem_cons.mp hmem with rfl | hbs
    · simp [findPlayer]
    · have hbne : b.id ≠ a.id := by
        intro hc
        have : a.id ∈ bs.map Player.id := List.mem_map_of_mem Player.id hbs
        rw [← hc] at this
        exact (List.nodup_cons.mp (by simpa using hnodup)).1 this
      simp only [findPlayer, hbne, ite_false, if_neg]
      exact ih hbs (List.nodup_cons.mp (by simpa using hnodup)).2

theorem applyWinner_winner_fields (losers : List String) (bonuses : List (String × Nat))
    (st : PassState) (w : String) (winner : Player)
    (hfind : findPlayer st.players w = some winner) (hnmem : w ∉ losers) :
    ∃ w', findPlayer (applyWinner losers bonuses st w).players w = some w' ∧
      w'.points = winner.points + 1 + (bonusGet bonuses w : Int) := by
  simp only [applyWinner, hfind]
  rw [if_neg hnmem]
  dsimp only
  refine ⟨{ winner with
      points := winner.points + 1 + (bonusGet bonuses w : Int)
      streak := winner.streak + 1
      dailyRevengeKills := if 0 < bonusGet bonuses w then winner.dailyRevengeKills + 1
        else winner.dailyRevengeKills
      dailyMaxStreak := if winner.dailyMaxStreak < winner.streak + 1 then winner.streak + 1
        else winner.dailyMaxStreak
      action := none
      actionTarget := none
      actionTime := none
      attackType := none
      canHeckle := true }, ?_, rfl⟩
  rw [findPlayer_updatePlayer_self st.players w _ (by intro p; rfl), hfind]
  rfl

theorem groupAttacks_gang_aux (t : Player) (as : List Player) (l : List Player)
    (h : ∀ a ∈ as, a.inPit = true ∧ a.action = some PlayerAction.attack ∧
      a.actionTarget = some t.id) :
    as.foldl (fun acc p =>
      if p.inPit = true ∧ p.action = some PlayerAction.attack ∧ p.actionTarget.isSome then
        addToGroup acc (p.actionTarget.getD "") p
      else acc) [(t.id, l)] = [(t.id, l ++ as)] := by
  induction as generalizing l with
  | nil => simp
  | cons a as ih =>
    obtain ⟨h1, h2, h3⟩ := h a (List.mem_cons_self a as)
    have hc : a.inPit = true ∧ a.action = some PlayerAction.attack ∧
        a.actionTarget.isSome := ⟨h1, h2, by rw [h3]; rfl⟩
    rw [List.foldl_cons, if_pos hc]
    have hkey : a.actionTarget.getD "" = t.id := by rw [h3]; rfl
    rw [hkey]
    have haddto : addToGroup [(t.id, l)] t.id a = [(t.id, l ++ [a])] := by
      simp [addToGroup]
    rw [haddto, ih (l ++ [a]) (fun b hb => h b (List.mem_cons_of_mem a hb))]
    simp

theorem groupAttacks_gang (t : Player) (as : List Player)
    (hne : as ≠ [])
    (hatk : ∀ a ∈ as, a.inPit = true ∧ a.action = some PlayerAction.attack ∧
      a.actionTarget = some t.id)
    (htact : t.action ≠ some PlayerAction.attack) :
    groupAttacks (as ++ [t]) = [(t.id, as)] := by
  rcases as with _ | ⟨a, as'⟩
  · exact absurd rfl hne
  · obtain ⟨h1, h2, h3⟩ := hatk a (List.mem_cons_self a as')
    have hc : a.inPit = true ∧ a.action = some PlayerAction.attack ∧
        a.actionTarget.isSome := ⟨h1, h2, by rw [h3]; rfl⟩
    have hkey : a.actionTarget.getD "" = t.id := by rw [h3]; rfl
    simp only [groupAttacks, List.cons_append, List.foldl_cons, if_pos hc, hkey]
    have haddto : addToGroup [] t.id a = [(t.id, [a])] := rfl
    rw [haddto, List.foldl_append,
        groupAttacks_gang_aux t as' [a] (fun b hb => hatk b (List.mem_cons_of_mem a hb))]
    have hct : ¬ (t.inPit = true ∧ t.action = some PlayerAction.attack ∧
        t.actionTarget.isSome) := fun hc2 => htact hc2.2.1
    simp [if_neg hct]

theorem gangFold_spec (t : Player) (now : Nat) (rt0 : List (String × RevengeEntry)) :
    ∀ (as : List Player) (st : ResolutionState),
      (as.map Player.id).Nodup →
      (as.map Player.odIdentifier).Nodup →
      (∀ a ∈ as, rtGet st.revengeTargets a.odIdentifier = rtGet rt0 a.odIdentifier) →
      (∀ a ∈ as, bonusGet st.winnerBonuses a.id = 0) →
      (∀ a ∈ as, a.id ∉ st.winners) →
      (as.foldl (processGangAttacker t now) st).losers = st.losers ∧
      (as.foldl (processGangAttacker t now) st).winners =
        st.winners ++ as.map Player.id ∧
      (as.foldl (processGangAttacker t now) st).results =
        st.results ++ as.map (fun a =>
          gangResult a t (isLiveRevenge rt0 a.odIdentifier t.odIdentifier now)) ∧
      (∀ a ∈ as, bonusGet (as.foldl (processGangAttacker t now) st).winnerBonuses a.id =
        if isLiveRevenge rt0 a.odIdentifier t.odIdentifier now then 2 else 0) ∧
      (∀ i, i ∉ as.map Player.id →
        bonusGet (as.foldl (processGangAttacker t now) st).winnerBonuses i =
          bonusGet st.winnerBonuses i) := by
  intro as
  induction as with
  | nil =>
    intro st _ _ _ _ _
    refine ⟨rfl, by simp, by simp, ?_, fun i _ => rfl⟩
    intro a ha
    exact absurd ha (List.not_mem_nil a)
  | cons a as ih =>
    intro st hids hods hrt hbon hwin
    rw [List.map_cons] at hids hods
    have hidnd := List.nodup_cons.mp hids
    have hodnd := List.nodup_cons.mp hods
    have hrev : isLiveRevenge st.revengeTargets a.odIdentifier t.odIdentifier now =
        isLiveRevenge rt0 a.odIdentifier t.odIdentifier now :=
      isLiveRevenge_congr _ _ _ _ _ (hrt a (List.mem_cons_self a as))
    have hw : (processGangAttacker t now st a).winners = st.winners ++ [a.id] := by
      simp only [processGangAttacker]
      exact setAdd_of_not_mem _ _ (hwin a (List.mem_cons_self a as))
    have hr : (processGangAttacker t now st a).results =
        st.results ++ [gangResult a t (isLiveRevenge rt0 a.odIdentifier t.odIdentifier now)] := by
      simp only [processGangAttacker]
      rw [hrev]
    have hbn : (processGangAttacker t now st a).winnerBonuses =
        if isLiveRevenge rt0 a.odIdentifier t.odIdentifier now then
          bonusAdd st.winnerBonuses a.id 2 else st.winnerBonuses := by
      simp only [processGangAttacker]
      rw [hrev]
    have hrtn : (processGangAttacker t now st a).revengeTargets =
        if isLiveRevenge rt0 a.odIdentifier t.odIdentifier now then
          rtDelete st.revengeTargets a.odIdentifier else st.revengeTargets := by
      simp only [processGangAttacker]
      rw [hrev]
    have hrt' : ∀ b ∈ as, rtGet (processGangAttacker t now st a).revengeTargets
        b.odIdentifier = rtGet rt0 b.odIdentifier := by
      intro b hb
      have hbne : b.odIdentifier ≠ a.odIdentifier := by
        intro hc
        exact hodnd.1 (hc ▸ List.mem_map_of_mem Player.odIdentifier hb)
      rw [hrtn]
      by_cases hc : isLiveRevenge rt0 a.odIdentifier t.odIdentifier now
      · rw [if_pos hc, rtGet_rtDelete_ne _ _ _ hbne]
        exact hrt b (List.mem_cons_of_mem a hb)
      · rw [if_neg hc]
        exact hrt b (List.mem_cons_of_mem a hb)
    have hbon' : ∀ b ∈ as, bonusGet (processGangAttacker t now st a).winnerBonuses b.id = 0 := by
      intro b hb
      have hbne : b.id ≠ a.id := by
        intro hc
        exact hidnd.1 (hc ▸ List.mem_map_of_mem Player.id hb)
      rw [hbn]
      by_cases hc : isLiveRevenge rt0 a.odIdentifier t.odIdentifier now
      · rw [if_pos hc, bonusGet_bonusAdd_ne _ _ _ _ hbne]
        exact hbon b (List.mem_cons_of_mem a hb)
      · rw [if_neg hc]
        exact hbon b (List.mem_cons_of_mem a hb)
    have hwin' : ∀ b ∈ as, b.id ∉ (processGangAttacker t now st a).winners := by
      intro b hb
      have hbne : b.id ≠ a.id := by
        intro hc
        exact hidnd.1 (hc ▸ List.mem_map_of_mem Player.id hb)
      rw [hw]
      simp only [List.mem_append, List.mem_singleton]
      rintro (hc | hc)
      · exact hwin b (List.mem_cons_of_mem a hb) hc
      · exact hbne hc
    obtain ⟨ihl, ihw, ihr, ihb, ihp⟩ := ih (processGangAttacker t now st a)
      hidnd.2 hodnd.2 hrt' hbon' hwin'
    rw [List.foldl_cons] at *
    refine ⟨?_, ?_, ?_, ?_, ?_⟩
    · rw [ihl, processGangAttacker_losers]
    · rw [ihw, hw]
      simp
    · rw [ihr, hr]
      simp
    · intro b hb
      rcases List.mem_cons.mp hb with rfl | hbs
      · have hnotin : b.id ∉ as.map Player.id := hidnd.1
        rw [ihp b.id hnotin, hbn]
        by_cases hc : isLiveRevenge rt0 b.odIdentifier t.odIdentifier now
        · rw [if_pos hc, if_pos hc, bonusGet_bonusAdd_self,
              hbon b (List.mem_cons_self b as)]
        · rw [if_neg hc, if_neg hc, hbon b (List.mem_cons_self b as)]
      · exact ihb b hbs
    · intro i hi
      have hi1 : i ∉ as.map Player.id := fun hc =>
        hi (by simp only [List.map_cons, List.mem_cons]; exact Or.inr hc)
      have hi2 : i ≠ a.id := fun hc =>
        hi (by simp only [List.map_cons, List.mem_cons]; exact Or.inl hc)
      rw [ihp i hi1, hbn]
      by_cases hc : isLiveRevenge rt0 a.odIdentifier t.odIdentifier now
      · rw [if_pos hc, bonusGet_bonusAdd_ne _ _ _ _ hi2]
      · rw [if_neg hc]

/-- C1: a gang attack — the pit contains the attackers (all distinct, all
in-pit, all attacking the idle-or-defending target) plus the target.  The
target is recorded as losing to every attacker; its points drop by
exactly 1 in total (floored at 0, so exactly 1 when it had at least 1);
and every attacker's points rise by 1, plus 2 more exactly when that
attacker held a live revenge claim on the target. -/
theorem gang_attack_spec (now : Nat) (as : List Player) (t : Player)
    (rt0 : List (String × RevengeEntry)) (db : List DbRecord)
    (hlen : 2 ≤ as.length)
    (hids : (as.map Player.id).Nodup)
    (hods : (as.map Player.odIdentifier).Nodup)
    (hta : ∀ a ∈ as, a.id ≠ t.id)
    (hatk : ∀ a ∈ as, a.inPit = true ∧ a.action = some PlayerAction.attack ∧
      a.actionTarget = some t.id)
    (htp : t.inPit = true)
    (htact : t.action ≠ some PlayerAction.attack) :
    (∀ a ∈ as, gangResult a t (isLiveRevenge rt0 a.odIdentifier t.odIdentifier now) ∈
      (resolvePass now ⟨as ++ [t], rt0, db⟩).results) ∧
    (∃ t', findPlayer (processAllAttacks now ⟨as ++ [t], rt0, db⟩).1.players t.id =
        some t' ∧ t'.points = max 0 (t.points - 1) ∧
        (1 ≤ t.points → t'.points = t.points - 1)) ∧
    (∀ a ∈ as, ∃ a', findPlayer (processAllAttacks now ⟨as ++ [t], rt0, db⟩).1.players
        a.id = some a' ∧
      a'.points = a.points + 1 +
        (if isLiveRevenge rt0 a.odIdentifier t.odIdentifier now then 2 else 0)) := by
  have hne : as ≠ [] := by
    intro hc
    rw [hc] at hlen
    simp at hlen
  have hgroups := groupAttacks_gang t as hne hatk htact
  have hfp_t : findPlayer (as ++ [t]) t.id = some t := by
    rw [findPlayer_append_skip as [t] t.id hta]
    simp [findPlayer]
  have hres : resolvePass now ⟨as ++ [t], rt0, db⟩ =
      as.foldl (processGangAttacker t now) ⟨[], [t.id], [], [], rt0⟩ := by
    show (groupAttacks (as ++ [t])).foldl (processGroup (as ++ [t]) now)
      (initResolution rt0) = _
    rw [hgroups, List.foldl_cons, List.foldl_nil]
    have hpit : ¬ (t.inPit = false) := by
      rw [htp]
      simp
    simp only [processGroup, hfp_t]
    rw [if_neg hpit, if_pos (show 1 < as.length by omega)]
    congr 1
  obtain ⟨hL, hW, hR, hB, _⟩ := gangFold_spec t now rt0 as ⟨[], [t.id], [], [], rt0⟩
    hids hods (fun a _ => rfl) (fun a _ => rfl) (fun a _ => List.not_mem_nil _)
  have hLr : (resolvePass now ⟨as ++ [t], rt0, db⟩).losers = [t.id] := by
    rw [hres]
    exact hL
  have hWr : (resolvePass now ⟨as ++ [t], rt0, db⟩).winners = as.map Player.id := by
    rw [hres, hW]
    simp
  have hRr : (resolvePass now ⟨as ++ [t], rt0, db⟩).results =
      as.map (fun a =>
        gangResult a t (isLiveRevenge rt0 a.odIdentifier t.odIdentifier now)) := by
    rw [hres, hR]
    simp
  have hBr : ∀ a ∈ as, bonusGet (resolvePass now ⟨as ++ [t], rt0, db⟩).winnerBonuses
      a.id = if isLiveRevenge rt0 a.odIdentifier t.odIdentifier now then 2 else 0 := by
    intro a ha
    rw [hres]
    exact hB a ha
  have hpass : (processAllAttacks now ⟨as ++ [t], rt0, db⟩).1.players =
      ((resolvePass now ⟨as ++ [t], rt0, db⟩).winners.foldl
        (applyWinner (resolvePass now ⟨as ++ [t], rt0, db⟩).losers
          (resolvePass now ⟨as ++ [t], rt0, db⟩).winnerBonuses)
        ((resolvePass now ⟨as ++ [t], rt0, db⟩).losers.foldl (applyLoser now)
          { players := as ++ [t],
            revengeTargets := (resolvePass now ⟨as ++ [t], rt0, db⟩).revengeTargets,
            db := db, results := (resolvePass now ⟨as ++ [t], rt0, db⟩).results })).players :=
    rfl
  refine ⟨?_, ?_, ?_⟩
  · intro a ha
    rw [hRr]
    exact List.mem_map_of_mem _ ha
  · have hfp1 : findPlayer
        ({ players := as ++ [t],
           revengeTargets := (resolvePass now ⟨as ++ [t], rt0, db⟩).revengeTargets,
           db := db,
           results := (resolvePass now ⟨as ++ [t], rt0, db⟩).results } : PassState).players
        t.id = some t := hfp_t
    obtain ⟨t', ht1, ht2⟩ := applyLoser_loser_points now _ t.id t hfp1
    have hmem_t : t.id ∈ (resolvePass now ⟨as ++ [t], rt0, db⟩).losers := by
      rw [hLr]
      simp
    refine ⟨t', ?_, ht2, ?_⟩
    · rw [hpass, foldl_applyWinner_preserves_mem _ _ _ _ _ hmem_t, hLr,
          List.foldl_cons, List.foldl_nil]
      exact ht1
    · intro hpts
      rw [ht2, max_eq_right (by omega : (0 : Int) ≤ t.points - 1)]
  · intro a ha
    have hane : a.id ≠ t.id := hta a ha
    have hfa : findPlayer (as ++ [t]) a.id = some a :=
      findPlayer_append_left _ _ _ _ (findPlayer_of_mem_nodup as a ha hids)
    have hmemw : a.id ∈ (resolvePass now ⟨as ++ [t], rt0, db⟩).winners := by
      rw [hWr]
      exact List.mem_map_of_mem _ ha
    obtain ⟨s, t2, hsplitw⟩ := List.append_of_mem hmemw
    have hwnodup : (resolvePass now ⟨as ++ [t], rt0, db⟩).winners.Nodup := by
      rw [hWr]
      exact hids
    have hnd2 := hsplitw ▸ hwnodup
    have hs : a.id ∉ s := by
      intro hc
      rcases List.nodup_append.mp hnd2 with ⟨_, _, hdisj⟩
      exact hdisj hc (List.mem_cons_self a.id t2)
    have ht2 : a.id ∉ t2 := by
      rcases List.nodup_append.mp hnd2 with ⟨_, hct, _⟩
      exact (List.nodup_cons.mp hct).1
    have hnotml : a.id ∉ (resolvePass now ⟨as ++ [t], rt0, db⟩).losers := by
      rw [hLr]
      simp [hane]
    have hfind_inner : findPlayer
        ((s.foldl (applyWinner (resolvePass now ⟨as ++ [t], rt0, db⟩).losers
            (resolvePass now ⟨as ++ [t], rt0, db⟩).winnerBonuses)
          ((resolvePass now ⟨as ++ [t], rt0, db⟩).losers.foldl (applyLoser now)
            { players := as ++ [t],
              revengeTargets := (resolvePass now ⟨as ++ [t], rt0, db⟩).revengeTargets,
              db := db,
              results := (resolvePass now ⟨as ++ [t], rt0, db⟩).results }))).players
        a.id = some a := by
      rw [foldl_applyWinner_preserves_notmem _ _ s _ _ hs, hLr, List.foldl_cons,
          List.foldl_nil, applyLoser_preserves_other now _ t.id a.id hane]
      exact hfa
    obtain ⟨a', ha1, ha2⟩ := applyWinner_winner_fields _ _ _ a.id a hfind_inner hnotml
    refine ⟨a', ?_, ?_⟩
    · rw [hpass, hsplitw, List.foldl_append, List.foldl_cons,
          foldl_applyWinner_preserves_notmem _ _ t2 _ _ ht2]
      exact ha1
    · rw [ha2, hBr a ha]
      by_cases hc : isLiveRevenge rt0 a.odIdentifier t.odIdentifier now
      · simp [hc]
      · simp [hc]

/-- C1 witness: three attackers gang an idle target; attacker A1 holds a
live revenge claim on the target.  The pass records the target losing to
all three, decrements the target once, and credits each attacker +1
(plus 2 for A1). -/
theorem gang_attack_spec_witness :
    let a1 : Player := mkPlayer "A1" "odA1" "A1" 5 10 (some PlayerAction.attack)
      (some "T") (some 1) (some AttackType.distance)
    let a2 : Player := mkPlayer "A2" "odA2" "A2" 5 11 (some PlayerAction.attack)
      (some "T") (some 1) (some AttackType.melee)
    let a3 : Player := mkPlayer "A3" "odA3" "A3" 5 12 (some PlayerAction.attack)
      (some "T") (some 1) (some AttackType.distance)
    let t : Player := mkPlayer "T" "odT" "T" 5 50 none none none none
    let rt0 : List (String × RevengeEntry) := [("odA1", ⟨"odT", 100⟩)]
    (∀ a ∈ [a1, a2, a3],
      gangResult a t (isLiveRevenge rt0 a.odIdentifier t.odIdentifier 0) ∈
        (resolvePass 0 ⟨[a1, a2, a3] ++ [t], rt0, []⟩).results) ∧
    (∃ t', findPlayer (processAllAttacks 0 ⟨[a1, a2, a3] ++ [t], rt0, []⟩).1.players
        t.id = some t' ∧ t'.points = max 0 (t.points - 1) ∧
        (1 ≤ t.points → t'.points = t.points - 1)) ∧
    (∀ a ∈ [a1, a2, a3], ∃ a',
      findPlayer (processAllAttacks 0 ⟨[a1, a2, a3] ++ [t], rt0, []⟩).1.players
        a.id = some a' ∧
      a'.points = a.points + 1 +
        (if isLiveRevenge rt0 a.odIdentifier t.odIdentifier 0 then 2 else 0)) := by
  intro a1 a2 a3 t rt0
  exact gang_attack_spec 0 [a1, a2, a3] t rt0 [] (by decide) (by decide) (by decide)
    (by decide) (by decide) (by decide) (by decide)
